import Mathlib

/-!
The file cgroup-support.c of snap-confine.

A shallow embedding of `cmd/libsnap-confine-private/cgroup-support.c`:
the Hierarchy Joiner `sc_cgroup_create_and_join`, the Mode Detector
`sc_cgroup_is_v2`, the Hierarchy Locator `sc_find_unified_hierarchy` and the
entry point `sc_join_sub_cgroup`.

Conventions of the embedding:
* a C string is a `List Char`, one `Char` for one `char`;
* `die(...)` ends the process, so a function that can die returns an
  `Outcome`, whose `die` case carries the formatted diagnostic;
* what the kernel and the C library answer is an explicit argument (the
  result of `statfs`, the content of `/proc/<pid>/cgroup`, a `Kernel` that
  answers system calls), and what the code does to the outside is an explicit
  result (the text printed on stderr, the system calls made, the new value
  of the static flag `did_warn`);
* `debug(...)` prints only in debug mode and is left out.
-/

namespace CgroupSupport

/-! ## Text, outcomes and formatting -/

/-- The content of a C string, terminator excluded. -/
abbrev Text := List Char

/-- Modelled from the spec: die of utils.c, which is not among the sources, "a
fatal-error reporter taking a formatted message and terminating the calling
program". A call ends in one of two ways: it returns a value, or it ends the
process through `die`, and then `msg` is the formatted message (what die adds
to it from `errno` is left out). -/
inductive Outcome (α : Type) where
  | ok (value : α)
  | die (msg : Text)
deriving DecidableEq, Repr

/-- The cast `(long)x`: the value within the 64-bit signed range. -/
def toLong (x : Int) : Int := (x + 2 ^ 63) % 2 ^ 64 - 2 ^ 63

/-- The cast `(int)x`: the value within the 32-bit signed range. -/
def toCInt (x : Int) : Int := (x + 2 ^ 31) % 2 ^ 32 - 2 ^ 31

/-- The decimal digits of `n`, most significant first, put before `acc`;
`fuel` bounds the number of digits. -/
def digitsLoop : Nat → Nat → Text → Text
  | 0, _, acc => acc
  | fuel + 1, n, acc =>
    if n < 10 then Nat.digitChar n :: acc
    else digitsLoop fuel (n / 10) (Nat.digitChar (n % 10) :: acc)

/-- The decimal rendering of a natural number, as printf prints it. -/
def fmtNat (n : Nat) : Text := digitsLoop (n + 1) n []

/-- What the printf conversions `%d` and `%ld` print for the value `v`. -/
def fmtDecimal (v : Int) : Text :=
  if v < 0 then '-' :: fmtNat v.natAbs else fmtNat v.natAbs

/-- Reads a decimal rendering back: the value of a run of digits. -/
def parseNat (t : Text) : Nat :=
  t.foldl (fun acc c => 10 * acc + (c.toNat - '0'.toNat)) 0

/-- Reads back an optional minus sign followed by digits. -/
def parseDecimal : Text → Int
  | '-' :: t => - (parseNat t : Int)
  | t => (parseNat t : Int)

/-- Modelled from the spec: sc_must_snprintf of string-utils.c, which is not
among the sources: "a bounded string-formatting primitive that fails fatally
rather than silently truncating when output would not fit its destination
buffer". `size` is the size of the destination buffer, which also holds the
terminator; `formatted` is the complete text printf produces. On success the
buffer holds `formatted` and the call returns its length. The text of the
diagnostic is not given by the spec. -/
def sc_must_snprintf (size : Nat) (formatted : Text) : Outcome (Text × Nat) :=
  if formatted.length < size then .ok (formatted, formatted.length)
  else .die "cannot format string".toList

/-- The platform path-length limit of `<limits.h>` on Linux. -/
def PATH_MAX : Nat := 4096

def ENOENT : Nat := 2

def EEXIST : Nat := 17

/-! ## Mode Detector -/

def cgroup_dir : Text := "/sys/fs/cgroup".toList

def CGROUP2_SUPER_MAGIC : Int := 0x63677270

/-- What `statfs(cgroup_dir, &buf)` answers: its return value, `errno` after
the call and `buf.f_type`. -/
structure StatfsResult where
  ret : Int
  errno : Nat
  f_type : Int
deriving DecidableEq, Repr

/-- The line `sc_cgroup_is_v2` prints on stderr. -/
def v2_warning : Text :=
  "WARNING: cgroup v2 is not fully supported yet, proceeding with partial confinement\n".toList

/-- One call of the Mode Detector: the static flag after the call, what was
printed on stderr, and the returned mode (`true` is Unified) or the fatal
diagnostic. -/
structure DetectResult where
  did_warn : Bool
  stderr : List Text
  outcome : Outcome Bool
deriving DecidableEq, Repr

/-- The function `sc_cgroup_is_v2`, given the static flag `did_warn` before the
call and the answer of statfs. -/
def sc_cgroup_is_v2 (did_warn : Bool) (st : StatfsResult) : DetectResult :=
  if st.ret ≠ 0 then
    if st.errno = ENOENT then ⟨did_warn, [], .ok false⟩
    else ⟨did_warn, [], .die ("cannot statfs ".toList ++ cgroup_dir)⟩
  else if st.f_type = CGROUP2_SUPER_MAGIC then
    if !did_warn then ⟨true, [v2_warning], .ok true⟩
    else ⟨did_warn, [], .ok true⟩
  else ⟨did_warn, [], .ok false⟩

/-- One step of a process that calls the Mode Detector repeatedly. -/
structure DetectStep where
  before : Bool
  probe : StatfsResult
  result : DetectResult
deriving DecidableEq, Repr

/-- The calls a process makes when it probes with the given statfs answers
in turn: the flag is carried from call to call, and a call that dies is the
last one. -/
def runDetector : Bool → List StatfsResult → List DetectStep
  | _, [] => []
  | flag, st :: rest =>
    let r := sc_cgroup_is_v2 flag st
    match r.outcome with
    | .die _ => [⟨flag, st, r⟩]
    | .ok _ => ⟨flag, st, r⟩ :: runDetector r.did_warn rest

/-! ## Hierarchy Locator -/

/-- What the file `/proc/<pid>/cgroup` does for the caller: the return value
of `open`, whether `fdopen` gives a stream, the bytes of the file, and the
number of the `getline` call (from 0) that fails with a read error, if any. -/
structure ProcCgroup where
  open_ret : Int
  fdopen_ok : Bool
  content : Text
  read_error_at : Option Nat
deriving DecidableEq, Repr

/-- A report that opens and is read without error. -/
def ProcCgroup.readable (report : Text) : ProcCgroup := ⟨3, true, report, none⟩

/-- The successive results of `getline` on a stream with this content: each
line with its newline, the last one possibly without. -/
def getlines : Text → List Text
  | [] => []
  | c :: rest =>
    if c = '\n' then [c] :: getlines rest
    else
      match getlines rest with
      | [] => [[c]]
      | l :: ls => (c :: l) :: ls

/-- The line after `if (len > 0 && line[len - 1] == '\n') line[len - 1] = 0`. -/
def chomp (line : Text) : Text :=
  if line.getLast? = some '\n' then line.dropLast else line

/-- The buffer read as a C string: its bytes before the first NUL. -/
def cstr (buf : Text) : Text := buf.takeWhile (fun c => c ≠ '\x00')

/-- The function `strchr(s, c)`: the rest of `s` from the first `c` on, or
none for NULL. -/
def strchr : Text → Char → Option Text
  | [], _ => none
  | x :: xs, c => if x = c then some (x :: xs) else strchr xs c

/-- The C string that starts where `s` does and ends where the NUL written at
the start of `tail` cuts it, `tail` being a pointer into `s`. -/
def cutAt (s tail : Text) : Text := s.take (s.length - tail.length)

/-- One call of the Locator: the static flag of the Mode Detector after the
call, what was printed on stderr, how many times `getline` and the Mode
Detector were called, and the path written to the buffer or the fatal
diagnostic. -/
structure LocateResult where
  did_warn : Bool
  stderr : List Text
  getline_calls : Nat
  detector_calls : Nat
  outcome : Outcome Text
deriving DecidableEq, Repr

/-- The loop `while (!found)` of `sc_find_unified_hierarchy` and the check that
follows it; `i` is the number of `getline` calls made so far and the list
holds the lines not read yet. -/
def findLoop (proc_pid_cgroup : Text) (path_size : Nat) (did_warn : Bool)
    (st : StatfsResult) (read_error_at : Option Nat) : Nat → List Text → LocateResult
  | i, [] =>
    if read_error_at = some i then
      ⟨did_warn, [], i + 1, 0,
        .die ("cannot read subsequent line from ".toList ++ proc_pid_cgroup)⟩
    else ⟨did_warn, [], i + 1, 0, .die "cannot find cgroup v2 path".toList⟩
  | i, raw :: rest =>
    if read_error_at = some i then
      ⟨did_warn, [], i + 1, 0,
        .die ("cannot read subsequent line from ".toList ++ proc_pid_cgroup)⟩
    else
      let line := cstr (chomp raw)
      match strchr line ':' with
      | none =>
        ⟨did_warn, [], i + 1, 0,
          .die ("cannot parse cgroup, expected hierarchy id: ".toList ++ line)⟩
      | some tmp1 =>
        let attr_ctrl_list := tmp1.tail
        match strchr attr_ctrl_list ':' with
        | none =>
          ⟨did_warn, [], i + 1, 0,
            .die ("cannot parse cgroup, expected controller list: ".toList ++ line)⟩
        | some tmp2 =>
          let attr_path := tmp2.tail
          match strchr attr_path ':' with
          | some _ =>
            ⟨did_warn, [], i + 1, 0,
              .die ("cannot parse cgroup, expected end of line: ".toList ++ line)⟩
          | none =>
            let attr_id := cutAt line tmp1
            if attr_id ≠ "0".toList then
              findLoop proc_pid_cgroup path_size did_warn st read_error_at (i + 1) rest
            else
              let attr_path := if attr_path.head? = some '/' then attr_path.tail else attr_path
              let d := sc_cgroup_is_v2 did_warn st
              match d.outcome with
              | .die msg => ⟨d.did_warn, d.stderr, i + 1, 1, .die msg⟩
              | .ok v2 =>
                let formatted :=
                  if v2 then "/sys/fs/cgroup/".toList ++ attr_path
                  else "/sys/fs/cgroup/unified/".toList ++ attr_path
                match sc_must_snprintf path_size formatted with
                | .die msg => ⟨d.did_warn, d.stderr, i + 1, 1, .die msg⟩
                | .ok (path, _) => ⟨d.did_warn, d.stderr, i + 1, 1, .ok path⟩

/-- The function `sc_find_unified_hierarchy`: `path_size` is the size of the
buffer `path`, `did_warn` the static flag of the Mode Detector before the call,
`st` what statfs answers should the Mode Detector be called. -/
def sc_find_unified_hierarchy (pid : Int) (path_size : Nat) (file : ProcCgroup)
    (did_warn : Bool) (st : StatfsResult) : LocateResult :=
  match sc_must_snprintf (PATH_MAX + 1)
      ("/proc/".toList ++ fmtDecimal (toCInt pid) ++ "/cgroup".toList) with
  | .die msg => ⟨did_warn, [], 0, 0, .die msg⟩
  | .ok (proc_pid_cgroup, _) =>
    if file.open_ret < 0 then
      ⟨did_warn, [], 0, 0, .die ("cannot open ".toList ++ proc_pid_cgroup)⟩
    else if !file.fdopen_ok then
      ⟨did_warn, [], 0, 0,
        .die ("cannot open stream from ".toList ++ fmtDecimal file.open_ret)⟩
    else
      findLoop proc_pid_cgroup path_size did_warn st file.read_error_at 0
        (getlines file.content)


/-! ## Hierarchy Joiner -/

/-- The open flags the code uses. -/
inductive OFlag where
  | O_WRONLY | O_PATH | O_DIRECTORY | O_NOFOLLOW | O_CLOEXEC
deriving DecidableEq, Repr

/-- The flag argument of fchownat. -/
inductive AtFlag where
  | AT_EMPTY_PATH
deriving DecidableEq, Repr

/-- A system call with its arguments; `sys_write` carries the `count` bytes
found at the buffer. -/
inductive Syscall where
  | sys_open (path : Text) (flags : List OFlag)
  | sys_mkdirat (dirfd : Int) (name : Text) (mode : Nat)
  | sys_openat (dirfd : Int) (name : Text) (flags : List OFlag)
  | sys_fchownat (dirfd : Int) (path : Text) (owner group : Nat) (flags : List AtFlag)
  | sys_write (fd : Int) (data : Text) (count : Nat)
  | sys_close (fd : Int)
deriving DecidableEq, Repr

/-- What a system call answers: its return value and `errno` after it. -/
structure SysRet where
  ret : Int
  errno : Nat
deriving DecidableEq, Repr

/-- A kernel: from its state and a system call, the new state and the
answer. -/
abbrev Kernel (σ : Type) := σ → Syscall → σ × SysRet

/-- One call of the Joiner: the state it leaves the kernel in, the system
calls it made, in order, and how it ended. -/
structure JoinResult (σ : Type) where
  state : σ
  trace : List Syscall
  outcome : Outcome Unit

/-- Modelled from the spec: the handler sc_cleanup_close of cleanup-funcs.c,
not among the sources, which SC_CLEANUP attaches to a descriptor variable:
"All descriptors opened in this sequence are released before the function
returns". It closes the descriptor the variable holds unless that is -1.
A call that dies leaves through `die` and runs no handler. -/
def sc_cleanup_close (fd : Int) : List Syscall :=
  if fd = -1 then [] else [.sys_close fd]

/-- The kernel after a list of calls whose answers are not looked at. -/
def runCalls {σ : Type} (K : Kernel σ) (s : σ) (calls : List Syscall) : σ :=
  calls.foldl (fun st c => (K st c).1) s

/-- The function `sc_cgroup_create_and_join` over the kernel `K` in state
`s0`. -/
def sc_cgroup_create_and_join {σ : Type} (K : Kernel σ) (s0 : σ) (parent name : Text)
    (pid : Int) : JoinResult σ :=
  let c1 := Syscall.sys_open parent [.O_PATH, .O_DIRECTORY, .O_NOFOLLOW, .O_CLOEXEC]
  let r1 := K s0 c1
  let parent_fd := r1.2.ret
  if parent_fd < 0 then
    ⟨r1.1, [c1], .die ("cannot open cgroup hierarchy ".toList ++ parent)⟩
  else
    let c2 := Syscall.sys_mkdirat parent_fd name 0o755
    let r2 := K r1.1 c2
    if r2.2.ret < 0 ∧ r2.2.errno ≠ EEXIST then
      ⟨r2.1, [c1, c2],
        .die ("cannot create cgroup hierarchy ".toList ++ parent ++ "/".toList ++ name)⟩
    else
      let c3 := Syscall.sys_openat parent_fd name [.O_PATH, .O_DIRECTORY, .O_NOFOLLOW, .O_CLOEXEC]
      let r3 := K r2.1 c3
      let hierarchy_fd := r3.2.ret
      if hierarchy_fd < 0 then
        ⟨r3.1, [c1, c2, c3],
          .die ("cannot open cgroup hierarchy ".toList ++ parent ++ "/".toList ++ name)⟩
      else
        let c4 := Syscall.sys_fchownat hierarchy_fd [] 0 0 [.AT_EMPTY_PATH]
        let r4 := K r3.1 c4
        if r4.2.ret < 0 then
          ⟨r4.1, [c1, c2, c3, c4],
            .die ("cannot change owner of cgroup hierarchy ".toList ++ parent ++ "/".toList
              ++ name ++ " to root.root".toList)⟩
        else
          let c5 := Syscall.sys_openat hierarchy_fd "cgroup.procs".toList
            [.O_WRONLY, .O_NOFOLLOW, .O_CLOEXEC]
          let r5 := K r4.1 c5
          let procs_fd := r5.2.ret
          if procs_fd < 0 then
            ⟨r5.1, [c1, c2, c3, c4, c5],
              .die ("cannot open file ".toList ++ parent ++ "/".toList ++ name
                ++ "/cgroup.procs".toList)⟩
          else
            match sc_must_snprintf 22 (fmtDecimal (toLong pid)) with
            | .die msg => ⟨r5.1, [c1, c2, c3, c4, c5], .die msg⟩
            | .ok (text, n) =>
              let buf := text ++ List.replicate (22 - text.length) '\x00'
              let c6 := Syscall.sys_write procs_fd (buf.take n) n
              let r6 := K r5.1 c6
              if r6.2.ret < (n : Int) then
                ⟨r6.1, [c1, c2, c3, c4, c5, c6],
                  .die ("cannot move process ".toList ++ fmtDecimal (toLong pid)
                    ++ " to cgroup hierarchy ".toList ++ parent ++ "/".toList ++ name)⟩
              else
                let closes := sc_cleanup_close procs_fd ++ sc_cleanup_close hierarchy_fd
                  ++ sc_cleanup_close parent_fd
                ⟨runCalls K r6.1 closes, [c1, c2, c3, c4, c5, c6] ++ closes, .ok ()⟩

/-- The result of `sc_join_sub_cgroup`: what the Locator did, and what the
Joiner did when the Locator returned a path. -/
structure JoinSubResult (σ : Type) where
  located : LocateResult
  joined : Option (JoinResult σ)

/-- The function `sc_join_sub_cgroup`. -/
def sc_join_sub_cgroup {σ : Type} (K : Kernel σ) (s0 : σ) (security_tag : Text) (pid : Int)
    (file : ProcCgroup) (did_warn : Bool) (st : StatfsResult) : JoinSubResult σ :=
  let located := sc_find_unified_hierarchy pid (PATH_MAX + 1) file did_warn st
  match located.outcome with
  | .die _ => ⟨located, none⟩
  | .ok current_hierarchy_path =>
    ⟨located, some (sc_cgroup_create_and_join K s0 current_hierarchy_path security_tag pid)⟩

/-! ## Kernels -/

/-- A kernel that answers its k-th system call with `script k`, whatever the
call is; its state is the number of calls answered. -/
def scripted (script : Nat → SysRet) : Kernel Nat := fun k _ => (k + 1, script k)

/-- What a descriptor of the cgroup filesystem refers to. -/
inductive Handle where
  | parent (path : Text)
  | child (path name : Text)
  | procs (path name : Text)
deriving DecidableEq, Repr

/-- An entry of a directory of the cgroup filesystem: a cgroup directory,
with its inode number, owner, group and what was written to its cgroup.procs,
or something that is not a directory. -/
inductive Node where
  | dir (ino owner group : Nat) (written : List Text)
  | other
deriving DecidableEq, Repr

/-- The node with a new owner and group. -/
def Node.chown (owner group : Nat) : Node → Node
  | .dir ino _ _ w => .dir ino owner group w
  | .other => .other

/-- The node after `data` was written to its cgroup.procs. -/
def Node.append (data : Text) : Node → Node
  | .dir ino o g w => .dir ino o g (w ++ [data])
  | .other => .other

/-- A model of the cgroup filesystem and of the calling process: the
effective user and group of the caller, the processes that exist, the
hierarchy directories that exist, their entries as (directory, name, node),
the next inode number, the descriptor table and the next descriptor. -/
structure Cgroupfs where
  euid : Nat
  egid : Nat
  live : List Int
  parents : List Text
  entries : List (Text × Text × Node)
  next_ino : Nat
  fds : Int → Option Handle
  next_fd : Nat

def EPERM : Nat := 1

def ESRCH : Nat := 3

def EBADF : Nat := 9

def ENOTDIR : Nat := 20

/-- The entry `e` is the one called `name` in the directory `path`. -/
def named (path name : Text) (e : Text × Text × Node) : Bool :=
  decide (e.1 = path ∧ e.2.1 = name)

/-- The entry `name` of the directory `path` found by a lookup. -/
def Cgroupfs.lookup (fs : Cgroupfs) (path name : Text) : Option Node :=
  (fs.entries.find? (named path name)).map (fun e => e.2.2)

/-- The number of entries called `name` the directory `path` holds. -/
def Cgroupfs.count (fs : Cgroupfs) (path name : Text) : Nat :=
  (fs.entries.filter (named path name)).length

/-- No directory holds two entries of the same name. -/
def Cgroupfs.WellFormed (fs : Cgroupfs) : Prop :=
  (fs.entries.map (fun e => (e.1, e.2.1))).Nodup

/-- The state with a new descriptor for `h`, and the answer of the call that
opened it. -/
def Cgroupfs.alloc (fs : Cgroupfs) (h : Handle) : Cgroupfs × SysRet :=
  ({ fs with fds := Function.update fs.fds (fs.next_fd : Int) (some h),
             next_fd := fs.next_fd + 1 }, ⟨(fs.next_fd : Int), 0⟩)

/-- The entries with the nodes called `name` in `path` replaced by `f`. -/
def Cgroupfs.modify (fs : Cgroupfs) (path name : Text) (f : Node → Node) : Cgroupfs :=
  { fs with entries := fs.entries.map (fun e =>
      if named path name e then (e.1, e.2.1, f e.2.2) else e) }

/-- The cgroup filesystem as a kernel. A new directory belongs to the
effective user and group of the caller and holds a cgroup.procs file;
mkdirat fails with EEXIST when the entry is present; only the superuser
changes owners; cgroup.procs takes the decimal pid of a process that
exists. -/
def cgroupfs : Kernel Cgroupfs := fun fs call =>
  match call with
  | .sys_open path _ =>
    if path ∈ fs.parents then fs.alloc (.parent path) else (fs, ⟨-1, ENOENT⟩)
  | .sys_mkdirat dirfd name _ =>
    match fs.fds dirfd with
    | some (.parent path) =>
      match fs.lookup path name with
      | some _ => (fs, ⟨-1, EEXIST⟩)
      | none =>
        ({ fs with entries := (path, name, .dir fs.next_ino fs.euid fs.egid []) :: fs.entries,
                   next_ino := fs.next_ino + 1 }, ⟨0, 0⟩)
    | _ => (fs, ⟨-1, EBADF⟩)
  | .sys_openat dirfd name _ =>
    match fs.fds dirfd with
    | some (.parent path) =>
      match fs.lookup path name with
      | some (.dir _ _ _ _) => fs.alloc (.child path name)
      | some .other => (fs, ⟨-1, ENOTDIR⟩)
      | none => (fs, ⟨-1, ENOENT⟩)
    | some (.child path dir) =>
      if name = "cgroup.procs".toList then fs.alloc (.procs path dir) else (fs, ⟨-1, ENOENT⟩)
    | _ => (fs, ⟨-1, EBADF⟩)
  | .sys_fchownat dirfd _ owner group _ =>
    match fs.fds dirfd with
    | some (.child path name) =>
      if fs.euid = 0 then
        (fs.modify path name (Node.chown owner group), ⟨0, 0⟩)
      else (fs, ⟨-1, EPERM⟩)
    | _ => (fs, ⟨-1, EBADF⟩)
  | .sys_write fd data count =>
    match fs.fds fd with
    | some (.procs path name) =>
      if parseDecimal data ∈ fs.live then
        (fs.modify path name (Node.append data), ⟨(count : Int), 0⟩)
      else (fs, ⟨-1, ESRCH⟩)
    | _ => (fs, ⟨-1, EBADF⟩)
  | .sys_close fd => ({ fs with fds := Function.update fs.fds fd none }, ⟨0, 0⟩)

/-- A cgroup filesystem with the one hierarchy directory
"/sys/fs/cgroup/user.slice", empty, for a caller that is the superuser with
the group 1000, the process 1234 existing. -/
def sampleFs : Cgroupfs :=
  { euid := 0, egid := 1000, live := [1234], parents := ["/sys/fs/cgroup/user.slice".toList],
    entries := [], next_ino := 1, fds := fun _ => none, next_fd := 3 }

/-! ## The report as the spec describes it -/

/-- The text of a line of the report: its bytes without the newline (a NUL
byte, which a text report does not hold, ends the text as it does in C). -/
def lineText (raw : Text) : Text := cstr (chomp raw)

/-- The number of colons of a line. -/
def colons (t : Text) : Nat := t.count ':'

/-- The colon-separated fields of a line. -/
def fields (t : Text) : List Text := t.splitOn ':'

/-- The first field of a record. -/
def hierarchyId (t : Text) : Text := (fields t).headD []

/-- The third field of a record. -/
def pathField (t : Text) : Text := (fields t).getD 2 []

/-- A path with exactly one leading slash removed when it has one. -/
def stripSlash : Text → Text
  | '/' :: r => r
  | p => p

/-- The mount point the Locator assumes for the detected mode. -/
def mountPrefix (unified : Bool) : Text :=
  if unified then "/sys/fs/cgroup/".toList else "/sys/fs/cgroup/unified/".toList

/-- The diagnostic of the format error for a line that does not have exactly
two colons; it names the line. -/
def formatDiagnostic (t : Text) : Text :=
  if colons t = 0 then "cannot parse cgroup, expected hierarchy id: ".toList ++ t
  else if colons t = 1 then "cannot parse cgroup, expected controller list: ".toList ++ t
  else "cannot parse cgroup, expected end of line: ".toList ++ t

/-- A line that is a well-formed three-field record: exactly two colons. -/
abbrev WellFormed (raw : Text) : Prop := colons (lineText raw) = 2

/-- A line that does not have exactly two colons. -/
abbrev Malformed (raw : Text) : Prop := colons (lineText raw) ≠ 2

/-- A well-formed record whose hierarchy-id is exactly "0". -/
abbrev ZeroRecord (raw : Text) : Prop :=
  colons (lineText raw) = 2 ∧ hierarchyId (lineText raw) = "0".toList

/-- A decisive line: malformed, or a record with id "0". -/
abbrev Decisive (raw : Text) : Prop := Malformed raw ∨ ZeroRecord raw

/-- The relative path the Locator takes from a record. -/
def relPath (raw : Text) : Text := stripSlash (pathField (lineText raw))

/-- What the Locator does once it has reached a record with id "0" and path
field `p`: it asks the Mode Detector and formats the path. -/
def atZeroRecord (size : Nat) (flag : Bool) (st : StatfsResult) (i : Nat) (p : Text) :
    LocateResult :=
  let d := sc_cgroup_is_v2 flag st
  match d.outcome with
  | .die msg => ⟨d.did_warn, d.stderr, i + 1, 1, .die msg⟩
  | .ok v2 =>
    match sc_must_snprintf size (mountPrefix v2 ++ stripSlash p) with
    | .die msg => ⟨d.did_warn, d.stderr, i + 1, 1, .die msg⟩
    | .ok (path, _) => ⟨d.did_warn, d.stderr, i + 1, 1, .ok path⟩

/-- The outcome is one of the three format errors of the Locator. -/
def IsFormatError (o : Outcome Text) : Prop :=
  ∃ t, colons t ≠ 2 ∧ o = .die (formatDiagnostic t)

/-- The Locator as `sc_join_sub_cgroup` calls it, with a buffer of
`PATH_MAX + 1` bytes, on a report that opens and reads without error. -/
def locate (pid : Int) (report : Text) (did_warn : Bool) (st : StatfsResult) : LocateResult :=
  sc_find_unified_hierarchy pid (PATH_MAX + 1) (ProcCgroup.readable report) did_warn st

/-- Everything the calls of a run printed on stderr, in order. -/
def warnings (tr : List DetectStep) : List Text := (tr.map (fun s => s.result.stderr)).flatten

/-- The number of calls of a run that change the flag from false to true. -/
def flagSets (tr : List DetectStep) : Nat :=
  (tr.filter (fun s => !s.before && s.result.did_warn)).length

/-- The shapes of a line by its number of colons. -/
inductive Shape (t : Text) : Prop where
  | zero (h : ':' ∉ t)
  | one (a b : Text) (ht : t = a ++ ':' :: b) (ha : ':' ∉ a) (hb : ':' ∉ b)
  | two (a b c : Text) (ht : t = a ++ ':' :: (b ++ ':' :: c)) (ha : ':' ∉ a) (hb : ':' ∉ b)
      (hc : ':' ∉ c)
  | more (a b c d : Text) (ht : t = a ++ ':' :: (b ++ ':' :: (c ++ ':' :: d))) (ha : ':' ∉ a)
      (hb : ':' ∉ b) (hc : ':' ∉ c)

/-! ## The Joiner as the spec describes it -/

/-- The Joiner over a scripted kernel, started at its first answer. -/
def joinScripted (script : Nat → SysRet) (parent name : Text) (pid : Int) : JoinResult Nat :=
  sc_cgroup_create_and_join (scripted script) 0 parent name pid

/-- The six steps of the Joiner as system calls, in order: open the parent,
create the child with mode 0755, open the child, give it to 0:0, open
cgroup.procs write-only, write the pid. The descriptors are those the script
returns. -/
def joinerCalls (script : Nat → SysRet) (parent name : Text) (pid : Int) : List Syscall :=
  [.sys_open parent [.O_PATH, .O_DIRECTORY, .O_NOFOLLOW, .O_CLOEXEC],
   .sys_mkdirat (script 0).ret name 0o755,
   .sys_openat (script 0).ret name [.O_PATH, .O_DIRECTORY, .O_NOFOLLOW, .O_CLOEXEC],
   .sys_fchownat (script 2).ret [] 0 0 [.AT_EMPTY_PATH],
   .sys_openat (script 2).ret "cgroup.procs".toList [.O_WRONLY, .O_NOFOLLOW, .O_CLOEXEC],
   .sys_write (script 4).ret (fmtDecimal (toLong pid)) (fmtDecimal (toLong pid)).length]

/-- Step `k` (from 0) of the Joiner succeeds with the answer `r`, the write
being asked for `n` bytes: mkdirat may also fail with EEXIST, the write must
take all `n` bytes, the other calls must not fail. -/
def StepOk (n : Nat) (k : Nat) (r : SysRet) : Prop :=
  if k = 1 then 0 ≤ r.ret ∨ r.errno = EEXIST
  else if k = 5 then (n : Int) ≤ r.ret
  else 0 ≤ r.ret

instance (n k : Nat) (r : SysRet) : Decidable (StepOk n k r) := by
  unfold StepOk; infer_instance

/-- The diagnostic of the Joiner when step `k` (from 0) fails. -/
def joinerDiagnostic (parent name : Text) (pid : Int) : Nat → Text
  | 0 => "cannot open cgroup hierarchy ".toList ++ parent
  | 1 => "cannot create cgroup hierarchy ".toList ++ parent ++ "/".toList ++ name
  | 2 => "cannot open cgroup hierarchy ".toList ++ parent ++ "/".toList ++ name
  | 3 => "cannot change owner of cgroup hierarchy ".toList ++ parent ++ "/".toList ++ name
      ++ " to root.root".toList
  | 4 => "cannot open file ".toList ++ parent ++ "/".toList ++ name ++ "/cgroup.procs".toList
  | _ => "cannot move process ".toList ++ fmtDecimal (toLong pid)
      ++ " to cgroup hierarchy ".toList ++ parent ++ "/".toList ++ name

/-- The write calls of a trace. -/
def writeCalls (tr : List Syscall) : List Syscall :=
  tr.filter (fun c => match c with
    | .sys_write _ _ _ => true
    | _ => false)

/-- The Joiner over the cgroup filesystem model. -/
def joinFs (fs : Cgroupfs) (parent name : Text) (pid : Int) : JoinResult Cgroupfs :=
  sc_cgroup_create_and_join cgroupfs fs parent name pid

/-! ## Lemmas on C strings -/

theorem strchr_not_mem {s : Text} {c : Char} (h : c ∉ s) : strchr s c = none := by
  induction s with
  | nil => rfl
  | cons x xs ih =>
    simp only [List.mem_cons, not_or] at h
    simp [strchr, Ne.symm h.1, ih h.2]

theorem strchr_append {a : Text} {c : Char} (b : Text) (h : c ∉ a) :
    strchr (a ++ c :: b) c = some (c :: b) := by
  induction a with
  | nil => simp [strchr]
  | cons x xs ih =>
    simp only [List.mem_cons, not_or] at h
    simp [strchr, Ne.symm h.1, ih h.2]

/-- Every text is colon-free, or a colon-free text, a colon and a rest. -/
theorem colon_split (t : Text) :
    ':' ∉ t ∨ ∃ a b, t = a ++ ':' :: b ∧ ':' ∉ a := by
  induction t with
  | nil => left; simp
  | cons x xs ih =>
    by_cases hx : x = ':'
    · right; exact ⟨[], xs, by simp [hx], by simp⟩
    · rcases ih with h | ⟨a, b, hab, ha⟩
      · left; simp [Ne.symm hx, h]
      · right; exact ⟨x :: a, b, by simp [hab], by simp [Ne.symm hx, ha]⟩

theorem count_colon_not_mem {t : Text} (h : ':' ∉ t) : t.count ':' = 0 :=
  List.count_eq_zero.mpr h

theorem splitOn_not_mem {t : Text} (h : ':' ∉ t) : t.splitOn ':' = [t] := by
  unfold List.splitOn
  apply List.splitOnP_eq_single
  intro x hx hc
  simp only [beq_iff_eq] at hc
  exact h (hc ▸ hx)

theorem splitOn_append {a : Text} (b : Text) (h : ':' ∉ a) :
    (a ++ ':' :: b).splitOn ':' = a :: b.splitOn ':' := by
  unfold List.splitOn
  apply List.splitOnP_first
  · intro x hx hc
    simp only [beq_iff_eq] at hc
    exact h (hc ▸ hx)
  · simp

theorem cutAt_append (a b : Text) : cutAt (a ++ b) b = a := by
  simp [cutAt]

theorem shape (t : Text) : Shape t := by
  rcases colon_split t with h | ⟨a, t1, ht, ha⟩
  · exact .zero h
  rcases colon_split t1 with h | ⟨b, t2, ht1, hb⟩
  · exact .one a t1 ht ha h
  rcases colon_split t2 with h | ⟨c, d, ht2, hc⟩
  · exact .two a b t2 (by rw [ht, ht1]) ha hb h
  · exact .more a b c d (by rw [ht, ht1, ht2]) ha hb hc

theorem colons_append {a : Text} (b : Text) (h : ':' ∉ a) :
    colons (a ++ ':' :: b) = colons b + 1 := by
  simp [colons, List.count_append, count_colon_not_mem h]

/-! ## Lemmas on decimal formatting -/

theorem digitsLoop_length (f : Nat) : ∀ (n k : Nat) (acc : Text), 0 < k → n < 10 ^ k →
    (digitsLoop f n acc).length ≤ k + acc.length := by
  induction f with
  | zero => intro n k acc _ _; simp [digitsLoop]
  | succ f ih =>
    intro n k acc hk hn
    unfold digitsLoop
    split
    · simp only [List.length_cons]; omega
    · rename_i h10
      have hk2 : 2 ≤ k := by
        by_contra hlt
        have : k = 1 := by omega
        subst this
        omega
      have hdiv : n / 10 < 10 ^ (k - 1) := by
        apply Nat.div_lt_of_lt_mul
        have : 10 ^ k = 10 * 10 ^ (k - 1) := by
          rw [← pow_succ']; congr 1; omega
        omega
      have := ih (n / 10) (k - 1) (Nat.digitChar (n % 10) :: acc) (by omega) hdiv
      simp only [List.length_cons] at this
      omega

theorem fmtNat_length (n k : Nat) (hk : 0 < k) (hn : n < 10 ^ k) : (fmtNat n).length ≤ k := by
  have := digitsLoop_length (n + 1) n k [] hk hn
  simpa [fmtNat] using this

theorem fmtDecimal_length (v : Int) (k : Nat) (hk : 0 < k) (hn : v.natAbs < 10 ^ k) :
    (fmtDecimal v).length ≤ k + 1 := by
  have := fmtNat_length v.natAbs k hk hn
  unfold fmtDecimal
  split
  · simp only [List.length_cons]; omega
  · omega

theorem toCInt_range (x : Int) : -(2 ^ 31) ≤ toCInt x ∧ toCInt x < 2 ^ 31 := by
  unfold toCInt; omega

theorem toLong_range (x : Int) : -(2 ^ 63) ≤ toLong x ∧ toLong x < 2 ^ 63 := by
  unfold toLong; omega

theorem toLong_of_range (x : Int) (h1 : -(2 ^ 63) ≤ x) (h2 : x < 2 ^ 63) : toLong x = x := by
  unfold toLong; omega

theorem fmt_pid_length (pid : Int) : (fmtDecimal (toCInt pid)).length ≤ 11 := by
  apply fmtDecimal_length _ 10 (by norm_num)
  have := toCInt_range pid
  omega

theorem fmt_long_length (v : Int) : (fmtDecimal (toLong v)).length ≤ 20 := by
  apply fmtDecimal_length _ 19 (by norm_num)
  have := toLong_range v
  omega

theorem digitChar_facts : ∀ n, n < 10 →
    (Nat.digitChar n).isDigit = true ∧ (Nat.digitChar n).toNat - '0'.toNat = n ∧
    (Nat.digitChar n = '0' ↔ n = 0) := by
  decide

theorem isDigit_ne {c : Char} (h : c.isDigit = true) : c ≠ '-' ∧ c ≠ '\n' ∧ c ≠ '\x00' := by
  refine ⟨?_, ?_, ?_⟩ <;> (rintro rfl; revert h; decide)

theorem digitsLoop_parse (f : Nat) : ∀ (n : Nat) (acc : Text), n < 10 ^ f →
    (digitsLoop f n acc).foldl (fun a c => 10 * a + (c.toNat - '0'.toNat)) 0 =
      acc.foldl (fun a c => 10 * a + (c.toNat - '0'.toNat)) n := by
  induction f with
  | zero =>
    intro n acc hn
    have : n = 0 := by simpa using hn
    subst this
    rfl
  | succ f ih =>
    intro n acc hn
    unfold digitsLoop
    split
    · rename_i h10
      simp only [List.foldl_cons, Nat.mul_zero, Nat.zero_add, (digitChar_facts n h10).2.1]
    · have hdiv : n / 10 < 10 ^ f := by
        apply Nat.div_lt_of_lt_mul
        rw [← pow_succ']
        exact hn
      rw [ih (n / 10) _ hdiv]
      simp only [List.foldl_cons, (digitChar_facts (n % 10) (Nat.mod_lt _ (by norm_num))).2.1]
      congr 1
      omega

theorem fuel_enough (n : Nat) : n < 10 ^ (n + 1) := by
  have h1 : n < 10 ^ n := Nat.lt_pow_self (by norm_num) n
  have h2 : 10 ^ n ≤ 10 ^ (n + 1) := Nat.pow_le_pow_right (by norm_num) (by omega)
  omega

theorem parseNat_fmtNat (n : Nat) : parseNat (fmtNat n) = n := by
  unfold parseNat fmtNat
  rw [digitsLoop_parse (n + 1) n [] (fuel_enough n)]
  rfl

theorem digitsLoop_digits (f : Nat) : ∀ (n : Nat) (acc : Text),
    ∀ c ∈ digitsLoop f n acc, c ∈ acc ∨ c.isDigit = true := by
  induction f with
  | zero => intro n acc c hc; left; simpa [digitsLoop] using hc
  | succ f ih =>
    intro n acc c hc
    unfold digitsLoop at hc
    split at hc
    · rename_i h10
      rcases List.mem_cons.mp hc with rfl | hc
      · right; exact (digitChar_facts n h10).1
      · left; exact hc
    · rcases ih _ _ c hc with h | h
      · rcases List.mem_cons.mp h with rfl | h
        · right; exact (digitChar_facts (n % 10) (Nat.mod_lt _ (by norm_num))).1
        · left; exact h
      · right; exact h

theorem fmtNat_digits (n : Nat) : ∀ c ∈ fmtNat n, c.isDigit = true := by
  intro c hc
  rcases digitsLoop_digits (n + 1) n [] c hc with h | h
  · simp at h
  · exact h

theorem digitsLoop_head (f : Nat) : ∀ (n : Nat) (acc : Text), 0 < n → n < 10 ^ f →
    ∃ c rest, digitsLoop f n acc = c :: rest ∧ c ≠ '0' ∧ c.isDigit = true := by
  induction f with
  | zero => intro n acc h0 hn; simp at hn; omega
  | succ f ih =>
    intro n acc h0 hn
    unfold digitsLoop
    split
    · rename_i h10
      refine ⟨_, _, rfl, ?_, (digitChar_facts n h10).1⟩
      intro h
      have := (digitChar_facts n h10).2.2.mp h
      omega
    · have hdiv : n / 10 < 10 ^ f := by
        apply Nat.div_lt_of_lt_mul
        rw [← pow_succ']
        exact hn
      exact ih (n / 10) _ (Nat.div_pos (by omega) (by norm_num)) hdiv

theorem fmtNat_head (n : Nat) (h0 : 0 < n) :
    ∃ c rest, fmtNat n = c :: rest ∧ c ≠ '0' ∧ c.isDigit = true :=
  digitsLoop_head (n + 1) n [] h0 (fuel_enough n)

theorem fmtNat_ne_nil (n : Nat) : ∃ c rest, fmtNat n = c :: rest ∧ c.isDigit = true := by
  rcases Nat.eq_zero_or_pos n with rfl | h
  · exact ⟨'0', [], rfl, rfl⟩
  · obtain ⟨c, rest, h1, _, h2⟩ := fmtNat_head n h
    exact ⟨c, rest, h1, h2⟩

theorem parseDecimal_fmtDecimal (v : Int) : parseDecimal (fmtDecimal v) = v := by
  unfold fmtDecimal
  split
  · rename_i hneg
    simp only [parseDecimal, parseNat_fmtNat]
    omega
  · rename_i hpos
    obtain ⟨c, rest, hc, hd⟩ := fmtNat_ne_nil v.natAbs
    have hne : c ≠ '-' := (isDigit_ne hd).1
    have : parseDecimal (fmtNat v.natAbs) = (parseNat (fmtNat v.natAbs) : Int) := by
      rw [hc]
      unfold parseDecimal
      split
      · rename_i t heq
        simp only [List.cons.injEq] at heq
        exact absurd heq.1 hne
      · rfl
    rw [this, parseNat_fmtNat]
    omega

/-- The rendering holds an optional minus sign and digits, so no newline and
no NUL byte. -/
theorem fmtDecimal_chars (v : Int) :
    ∀ c ∈ fmtDecimal v, c = '-' ∨ c.isDigit = true := by
  intro c hc
  unfold fmtDecimal at hc
  split at hc
  · rcases List.mem_cons.mp hc with rfl | hc
    · left; rfl
    · right; exact fmtNat_digits _ c hc
  · right; exact fmtNat_digits _ c hc

/-! ## Lemmas on the Locator's loop -/

/-- The result of the loop at a line the Locator skips: the loop goes on with
the next line. -/
theorem findLoop_skip (ppc : Text) (size : Nat) (flag : Bool) (st : StatfsResult)
    (i : Nat) (raw : Text) (rest : List Text)
    (h2 : colons (lineText raw) = 2) (hid : hierarchyId (lineText raw) ≠ "0".toList) :
    findLoop ppc size flag st none i (raw :: rest) = findLoop ppc size flag st none (i + 1) rest := by
  rcases shape (lineText raw) with h | ⟨a, b, ht, ha, hb⟩ | ⟨a, b, c, ht, ha, hb, hc⟩ |
    ⟨a, b, c, d, ht, ha, hb, hc⟩
  · simp [colons, count_colon_not_mem h] at h2
  · rw [ht, colons_append _ ha] at h2
    simp [colons, count_colon_not_mem hb] at h2
  · have hid2 : a ≠ ['0'] := by
      simpa [ht, hierarchyId, fields, splitOn_append _ ha] using hid
    simp only [lineText] at ht
    simp [findLoop, ht, strchr_append _ ha, strchr_append _ hb, strchr_not_mem hc,
      cutAt_append, hid2]
  · rw [ht, colons_append _ ha, colons_append _ hb, colons_append _ hc] at h2
    omega

/-- The result of the loop at a line that does not have exactly two colons. -/
theorem findLoop_malformed (ppc : Text) (size : Nat) (flag : Bool) (st : StatfsResult)
    (i : Nat) (raw : Text) (rest : List Text) (h2 : colons (lineText raw) ≠ 2) :
    findLoop ppc size flag st none i (raw :: rest) =
      ⟨flag, [], i + 1, 0, .die (formatDiagnostic (lineText raw))⟩ := by
  rcases shape (lineText raw) with h | ⟨a, b, ht, ha, hb⟩ | ⟨a, b, c, ht, ha, hb, hc⟩ |
    ⟨a, b, c, d, ht, ha, hb, hc⟩
  · have h0 : colons (lineText raw) = 0 := count_colon_not_mem h
    simp only [lineText] at h h0
    simp [findLoop, formatDiagnostic, lineText, strchr_not_mem h, h0]
  · have h1 : colons (lineText raw) = 1 := by
      rw [ht, colons_append _ ha]; simp [colons, count_colon_not_mem hb]
    simp only [lineText] at ht h1
    simp [findLoop, formatDiagnostic, lineText, h1]
    simp [ht, strchr_append _ ha, strchr_not_mem hb]
  · exfalso; apply h2
    rw [ht, colons_append _ ha, colons_append _ hb]; simp [colons, count_colon_not_mem hc]
  · have h3 : colons (lineText raw) = colons d + 3 := by
      rw [ht, colons_append _ ha, colons_append _ hb, colons_append _ hc]
    simp only [lineText] at ht h3
    simp [findLoop, formatDiagnostic, lineText, h3]
    simp [ht, strchr_append _ ha, strchr_append _ hb, strchr_append _ hc]

theorem stripSlash_eq (p : Text) :
    (if p.head? = some '/' then p.tail else p) = stripSlash p := by
  cases p with
  | nil => simp [stripSlash]
  | cons x xs =>
    by_cases hx : x = '/'
    · subst hx; simp [stripSlash]
    · have : stripSlash (x :: xs) = x :: xs := by
        unfold stripSlash
        split
        · rename_i h; simp at h; exact absurd h.1 hx
        · rfl
      simp [hx, this]

/-- The result of the loop at a record whose id is "0". -/
theorem findLoop_zero (ppc : Text) (size : Nat) (flag : Bool) (st : StatfsResult)
    (i : Nat) (raw : Text) (rest : List Text)
    (h2 : colons (lineText raw) = 2) (hid : hierarchyId (lineText raw) = "0".toList) :
    findLoop ppc size flag st none i (raw :: rest) =
      atZeroRecord size flag st i (pathField (lineText raw)) := by
  rcases shape (lineText raw) with h | ⟨a, b, ht, ha, hb⟩ | ⟨a, b, c, ht, ha, hb, hc⟩ |
    ⟨a, b, c, d, ht, ha, hb, hc⟩
  · simp [colons, count_colon_not_mem h] at h2
  · rw [ht, colons_append _ ha] at h2
    simp [colons, count_colon_not_mem hb] at h2
  · have hid2 : a = ['0'] := by
      simpa [ht, hierarchyId, fields, splitOn_append _ ha] using hid
    have hp : pathField (lineText raw) = c := by
      simp [ht, pathField, fields, splitOn_append _ ha, splitOn_append _ hb, splitOn_not_mem hc]
    rw [hp]
    simp only [lineText] at ht
    subst hid2
    simp only [findLoop, ht, strchr_append _ ha, strchr_append _ hb, strchr_not_mem hc,
      cutAt_append, List.tail_cons, stripSlash_eq, atZeroRecord, mountPrefix]
    cases hd : (sc_cgroup_is_v2 flag st).outcome with
    | die msg => simp
    | ok v2 => cases v2 <;> simp
  · rw [ht, colons_append _ ha, colons_append _ hb, colons_append _ hc] at h2
    omega
/-- The text `/proc/<pid>/cgroup` the Locator formats. -/
theorem proc_path_fits (pid : Int) :
    sc_must_snprintf (PATH_MAX + 1)
      ("/proc/".toList ++ fmtDecimal (toCInt pid) ++ "/cgroup".toList) =
    .ok ("/proc/".toList ++ fmtDecimal (toCInt pid) ++ "/cgroup".toList,
      ("/proc/".toList ++ fmtDecimal (toCInt pid) ++ "/cgroup".toList).length) := by
  have h := fmt_pid_length pid
  unfold sc_must_snprintf
  rw [if_pos]
  simp only [List.length_append, PATH_MAX, String.toList]
  simp only [List.length_cons, List.length_nil]
  omega

/-- On a readable report the Locator is its loop over the lines. -/
theorem locate_eq_findLoop (pid : Int) (size : Nat) (report : Text) (flag : Bool)
    (st : StatfsResult) :
    sc_find_unified_hierarchy pid size (ProcCgroup.readable report) flag st =
      findLoop ("/proc/".toList ++ fmtDecimal (toCInt pid) ++ "/cgroup".toList) size flag st
        none 0 (getlines report) := by
  unfold sc_find_unified_hierarchy
  rw [proc_path_fits]
  simp [ProcCgroup.readable]

theorem not_decisive_iff (raw : Text) :
    ¬ Decisive raw ↔ colons (lineText raw) = 2 ∧ hierarchyId (lineText raw) ≠ "0".toList := by
  unfold Decisive Malformed ZeroRecord
  constructor
  · intro h
    by_cases h2 : colons (lineText raw) = 2
    · exact ⟨h2, fun hid => h (Or.inr ⟨h2, hid⟩)⟩
    · exact absurd (Or.inl h2) h
  · rintro ⟨h2, hid⟩ (hm | ⟨_, hz⟩)
    · exact hm h2
    · exact hid hz

/-- Lines that are not decisive are read and passed over. -/
theorem findLoop_skip_all (ppc : Text) (size : Nat) (flag : Bool) (st : StatfsResult)
    (pre : List Text) : ∀ (i : Nat) (rest : List Text), (∀ x ∈ pre, ¬ Decisive x) →
    findLoop ppc size flag st none i (pre ++ rest) =
      findLoop ppc size flag st none (i + pre.length) rest := by
  induction pre with
  | nil => intro i rest _; simp
  | cons x xs ih =>
    intro i rest h
    have hx := (not_decisive_iff x).mp (h x (by simp))
    rw [List.cons_append, findLoop_skip ppc size flag st i x _ hx.1 hx.2,
      ih (i + 1) rest (fun y hy => h y (by simp [hy]))]
    simp only [List.length_cons]
    congr 1
    omega

/-- The lines of a report hold no decisive line, or a first one. -/
theorem first_decisive (lines : List Text) :
    (∀ x ∈ lines, ¬ Decisive x) ∨
    ∃ pre l post, lines = pre ++ l :: post ∧ (∀ x ∈ pre, ¬ Decisive x) ∧ Decisive l := by
  induction lines with
  | nil => left; simp
  | cons x xs ih =>
    by_cases hx : Decisive x
    · right; exact ⟨[], x, xs, by simp, by simp, hx⟩
    · rcases ih with h | ⟨pre, l, post, hl, hpre, hd⟩
      · left
        intro y hy
        rcases List.mem_cons.mp hy with rfl | hy
        · exact hx
        · exact h y hy
      · right
        refine ⟨x :: pre, l, post, by simp [hl], ?_, hd⟩
        intro y hy
        rcases List.mem_cons.mp hy with rfl | hy
        · exact hx
        · exact hpre y hy

/-- The first decisive line of a list of lines is unique. -/
theorem first_decisive_unique {pre1 pre2 : List Text} {l1 l2 : Text} {post1 post2 : List Text}
    (h : pre1 ++ l1 :: post1 = pre2 ++ l2 :: post2)
    (h1 : ∀ x ∈ pre1, ¬ Decisive x) (d1 : Decisive l1)
    (h2 : ∀ x ∈ pre2, ¬ Decisive x) (d2 : Decisive l2) :
    pre1 = pre2 ∧ l1 = l2 ∧ post1 = post2 := by
  induction pre1 generalizing pre2 with
  | nil =>
    cases pre2 with
    | nil => simpa using h
    | cons y ys =>
      simp only [List.nil_append, List.cons_append, List.cons.injEq] at h
      exact absurd (h.1 ▸ d1) (h2 y (by simp))
  | cons x xs ih =>
    cases pre2 with
    | nil =>
      simp only [List.nil_append, List.cons_append, List.cons.injEq] at h
      exact absurd (h.1 ▸ d2) (h1 x (by simp))
    | cons y ys =>
      simp only [List.cons_append, List.cons.injEq] at h
      obtain ⟨hp, hl, hpost⟩ := ih h.2 (fun z hz => h1 z (by simp [hz]))
        (fun z hz => h2 z (by simp [hz]))
      exact ⟨by rw [h.1, hp], hl, hpost⟩

/-- The Locator on a report without a decisive line. -/
theorem locate_no_decisive (pid : Int) (report : Text) (flag : Bool) (st : StatfsResult)
    (h : ∀ x ∈ getlines report, ¬ Decisive x) :
    locate pid report flag st =
      ⟨flag, [], (getlines report).length + 1, 0, .die "cannot find cgroup v2 path".toList⟩ := by
  unfold locate
  rw [locate_eq_findLoop]
  have := findLoop_skip_all ("/proc/".toList ++ fmtDecimal (toCInt pid) ++ "/cgroup".toList)
    (PATH_MAX + 1) flag st (getlines report) 0 [] h
  rw [List.append_nil] at this
  rw [this]
  simp [findLoop]

/-- The Locator on a report whose first decisive line is malformed. -/
theorem locate_malformed (pid : Int) (report : Text) (flag : Bool) (st : StatfsResult)
    (pre : List Text) (l : Text) (post : List Text) (hl : getlines report = pre ++ l :: post)
    (hpre : ∀ x ∈ pre, ¬ Decisive x) (hm : Malformed l) :
    locate pid report flag st =
      ⟨flag, [], pre.length + 1, 0, .die (formatDiagnostic (lineText l))⟩ := by
  unfold locate
  rw [locate_eq_findLoop, hl, findLoop_skip_all _ _ _ _ pre 0 _ hpre, findLoop_malformed _ _ _ _ _ _ _ hm]
  simp

/-- The Locator on a report whose first decisive line is a record with id "0". -/
theorem locate_zero (pid : Int) (report : Text) (flag : Bool) (st : StatfsResult)
    (pre : List Text) (l : Text) (post : List Text) (hl : getlines report = pre ++ l :: post)
    (hpre : ∀ x ∈ pre, ¬ Decisive x) (hz : ZeroRecord l) :
    locate pid report flag st =
      atZeroRecord (PATH_MAX + 1) flag st pre.length (pathField (lineText l)) := by
  unfold locate
  rw [locate_eq_findLoop, hl, findLoop_skip_all _ _ _ _ pre 0 _ hpre,
    findLoop_zero _ _ _ _ _ _ _ hz.1 hz.2]
  simp

theorem formatDiagnostic_take (t : Text) : (formatDiagnostic t).take 8 = "cannot p".toList := by
  unfold formatDiagnostic
  split
  · rfl
  · split <;> rfl

theorem not_formatError_of_take {msg : Text} (h : msg.take 8 ≠ "cannot p".toList) :
    ¬ IsFormatError (.die msg) := by
  rintro ⟨t, _, ht⟩
  injection ht with ht
  exact h (ht ▸ formatDiagnostic_take t)

theorem not_formatError_ok (p : Text) : ¬ IsFormatError (.ok p) := by
  rintro ⟨t, _, ht⟩
  cases ht

theorem detector_die_msg {flag : Bool} {st : StatfsResult} {msg : Text}
    (h : (sc_cgroup_is_v2 flag st).outcome = .die msg) :
    msg = "cannot statfs ".toList ++ cgroup_dir := by
  unfold sc_cgroup_is_v2 at h
  split at h
  · split at h
    · cases h
    · injection h with h; exact h.symm
  · split at h
    · split at h <;> cases h
    · cases h

theorem atZeroRecord_die (size : Nat) (flag : Bool) (st : StatfsResult) (i : Nat) (p : Text)
    {msg : Text} (hd : (sc_cgroup_is_v2 flag st).outcome = .die msg) :
    atZeroRecord size flag st i p =
      ⟨(sc_cgroup_is_v2 flag st).did_warn, (sc_cgroup_is_v2 flag st).stderr, i + 1, 1,
        .die msg⟩ := by
  simp only [atZeroRecord, hd]

theorem atZeroRecord_fit (size : Nat) (flag : Bool) (st : StatfsResult) (i : Nat) (p : Text)
    {unified : Bool} (hd : (sc_cgroup_is_v2 flag st).outcome = .ok unified)
    (hfit : (mountPrefix unified ++ stripSlash p).length < size) :
    atZeroRecord size flag st i p =
      ⟨(sc_cgroup_is_v2 flag st).did_warn, (sc_cgroup_is_v2 flag st).stderr, i + 1, 1,
        .ok (mountPrefix unified ++ stripSlash p)⟩ := by
  simp only [atZeroRecord, hd, sc_must_snprintf, hfit, if_true]

theorem atZeroRecord_long (size : Nat) (flag : Bool) (st : StatfsResult) (i : Nat) (p : Text)
    {unified : Bool} (hd : (sc_cgroup_is_v2 flag st).outcome = .ok unified)
    (hlong : ¬ (mountPrefix unified ++ stripSlash p).length < size) :
    atZeroRecord size flag st i p =
      ⟨(sc_cgroup_is_v2 flag st).did_warn, (sc_cgroup_is_v2 flag st).stderr, i + 1, 1,
        .die "cannot format string".toList⟩ := by
  simp only [atZeroRecord, hd, sc_must_snprintf, hlong, if_false]

theorem atZeroRecord_calls (size : Nat) (flag : Bool) (st : StatfsResult) (i : Nat)
    (p : Text) : (atZeroRecord size flag st i p).detector_calls = 1 ∧
      (atZeroRecord size flag st i p).getline_calls = i + 1 := by
  cases hd : (sc_cgroup_is_v2 flag st).outcome with
  | die msg => rw [atZeroRecord_die _ _ _ _ _ hd]; exact ⟨rfl, rfl⟩
  | ok v2 =>
    by_cases hfit : (mountPrefix v2 ++ stripSlash p).length < size
    · rw [atZeroRecord_fit _ _ _ _ _ hd hfit]; exact ⟨rfl, rfl⟩
    · rw [atZeroRecord_long _ _ _ _ _ hd hfit]; exact ⟨rfl, rfl⟩

theorem atZeroRecord_ok_iff (size : Nat) (flag : Bool) (st : StatfsResult) (i : Nat)
    (p path : Text) : (atZeroRecord size flag st i p).outcome = .ok path ↔
      ∃ unified, (sc_cgroup_is_v2 flag st).outcome = .ok unified ∧
        (mountPrefix unified ++ stripSlash p).length < size ∧
        path = mountPrefix unified ++ stripSlash p := by
  cases hd : (sc_cgroup_is_v2 flag st).outcome with
  | die msg =>
    rw [atZeroRecord_die _ _ _ _ _ hd]
    constructor
    · intro h; cases h
    · rintro ⟨u, hu, _⟩; cases hu
  | ok v2 =>
    by_cases hfit : (mountPrefix v2 ++ stripSlash p).length < size
    · rw [atZeroRecord_fit _ _ _ _ _ hd hfit]
      constructor
      · intro h
        injection h with h
        exact ⟨v2, rfl, hfit, h.symm⟩
      · rintro ⟨u, hu, _, hp⟩
        injection hu with hu
        subst hu
        rw [hp]
    · rw [atZeroRecord_long _ _ _ _ _ hd hfit]
      constructor
      · intro h; cases h
      · rintro ⟨u, hu, hlt, _⟩
        injection hu with hu
        subst hu
        exact absurd hlt hfit

theorem atZeroRecord_not_formatError (size : Nat) (flag : Bool) (st : StatfsResult) (i : Nat)
    (p : Text) : ¬ IsFormatError (atZeroRecord size flag st i p).outcome := by
  cases hd : (sc_cgroup_is_v2 flag st).outcome with
  | die msg =>
    rw [atZeroRecord_die _ _ _ _ _ hd, detector_die_msg hd]
    exact not_formatError_of_take (by decide)
  | ok v2 =>
    by_cases hfit : (mountPrefix v2 ++ stripSlash p).length < size
    · rw [atZeroRecord_fit _ _ _ _ _ hd hfit]
      exact not_formatError_ok _
    · rw [atZeroRecord_long _ _ _ _ _ hd hfit]
      exact not_formatError_of_take (by decide)

theorem mountPrefix_isPrefix (unified : Bool) (rel : Text) :
    "/sys/fs/cgroup/".toList <+: mountPrefix unified ++ rel := by
  cases unified
  · exact ⟨"unified/".toList ++ rel, by simp [mountPrefix]⟩
  · exact ⟨rel, by simp [mountPrefix]⟩

/-! ## Lines without a newline or a NUL byte -/

theorem getlines_no_newline : ∀ (t : Text), '\n' ∉ t → t ≠ [] → getlines t = [t]
  | [], _, h => absurd rfl h
  | [c], hn, _ => by
    have hc : c ≠ '\n' := fun h => hn (by simp [h])
    simp [getlines, hc]
  | c :: d :: rest, hn, _ => by
    have hc : c ≠ '\n' := fun h => hn (by simp [h])
    have ih := getlines_no_newline (d :: rest) (fun h => hn (List.mem_cons_of_mem _ h))
      (List.cons_ne_nil _ _)
    rw [getlines, if_neg hc, ih]

theorem chomp_no_newline (t : Text) (hn : '\n' ∉ t) : chomp t = t := by
  unfold chomp
  rw [if_neg]
  intro h
  exact hn (List.mem_of_getLast?_eq_some h)

theorem cstr_no_nul (t : Text) (hn : '\x00' ∉ t) : cstr t = t := by
  unfold cstr
  rw [List.takeWhile_eq_self_iff]
  intro c hc
  simp only [ne_eq, decide_not, Bool.not_eq_eq_eq_not, Bool.not_true, decide_eq_false_iff_not]
  rintro rfl
  exact hn hc

theorem lineText_plain (t : Text) (h1 : '\n' ∉ t) (h2 : '\x00' ∉ t) : lineText t = t := by
  unfold lineText
  rw [chomp_no_newline t h1, cstr_no_nul t h2]

/-- A record with id "0" whose path field is a slash and `n` letters. -/
theorem long_record (n : Nat) :
    getlines ("0::/".toList ++ List.replicate n 'a') = [] ++
      ("0::/".toList ++ List.replicate n 'a') :: [] ∧
    ZeroRecord ("0::/".toList ++ List.replicate n 'a') ∧
    stripSlash (pathField (lineText ("0::/".toList ++ List.replicate n 'a'))) =
      List.replicate n 'a' := by
  have ht : lineText ("0::/".toList ++ List.replicate n 'a') =
      ['0'] ++ ':' :: ([] ++ ':' :: ('/' :: List.replicate n 'a')) := by
    rw [lineText_plain]
    · rfl
    · simp [List.mem_replicate]
    · simp [List.mem_replicate]
  have h0 : ':' ∉ ['0'] := by decide
  have h1 : ':' ∉ ([] : Text) := by simp
  have h2 : ':' ∉ '/' :: List.replicate n 'a' := by simp [List.mem_replicate]
  refine ⟨?_, ⟨?_, ?_⟩, ?_⟩
  · apply getlines_no_newline
    · simp [List.mem_replicate]
    · simp
  · rw [ht, colons_append _ h0, colons_append _ h1]
    simp [colons, count_colon_not_mem h2]
  · rw [ht]
    simp only [hierarchyId, fields, splitOn_append _ h0, List.headD_cons]
    rfl
  · rw [ht]
    simp only [pathField, fields, splitOn_append _ h0, splitOn_append _ h1, splitOn_not_mem h2]
    rfl

theorem long_path_length (n : Nat) :
    ((if true then "/sys/fs/cgroup/".toList else "/sys/fs/cgroup/unified/".toList) ++
      List.replicate n 'a').length = n + 15 := by
  simp only [if_true, List.length_append, List.length_replicate, String.toList]
  simp only [List.length_cons, List.length_nil]
  omega

/-! ## Lemmas on the Mode Detector -/

theorem detect_outcome_flag (flag flag2 : Bool) (st : StatfsResult) :
    (sc_cgroup_is_v2 flag2 st).outcome = (sc_cgroup_is_v2 flag st).outcome := by
  unfold sc_cgroup_is_v2
  cases flag <;> cases flag2 <;> (repeat (split <;> try rfl))

theorem detect_stderr (flag : Bool) (st : StatfsResult) :
    (sc_cgroup_is_v2 flag st).stderr =
      if flag = false ∧ (sc_cgroup_is_v2 flag st).outcome = .ok true then [v2_warning] else [] := by
  unfold sc_cgroup_is_v2
  cases flag <;> (repeat (split <;> simp_all))

theorem detect_did_warn (flag : Bool) (st : StatfsResult) :
    (sc_cgroup_is_v2 flag st).did_warn =
      (flag || decide ((sc_cgroup_is_v2 flag st).outcome = .ok true)) := by
  unfold sc_cgroup_is_v2
  cases flag <;> (repeat (split <;> simp_all))

theorem runDetector_cons (flag : Bool) (st : StatfsResult) (rest : List StatfsResult) :
    runDetector flag (st :: rest) = [⟨flag, st, sc_cgroup_is_v2 flag st⟩] ∨
    runDetector flag (st :: rest) =
      ⟨flag, st, sc_cgroup_is_v2 flag st⟩ ::
        runDetector (sc_cgroup_is_v2 flag st).did_warn rest := by
  cases hd : (sc_cgroup_is_v2 flag st).outcome with
  | die msg => left; simp only [runDetector, hd]
  | ok m => right; simp only [runDetector, hd]

theorem runDetector_step (probes : List StatfsResult) : ∀ (flag : Bool),
    ∀ s ∈ runDetector flag probes, s.result = sc_cgroup_is_v2 s.before s.probe := by
  induction probes with
  | nil => intro flag s hs; simp [runDetector] at hs
  | cons st rest ih =>
    intro flag s hs
    rcases runDetector_cons flag st rest with h | h
    · rw [h] at hs
      simp only [List.mem_singleton] at hs
      subst hs; rfl
    · rw [h] at hs
      rcases List.mem_cons.mp hs with rfl | hs
      · rfl
      · exact ih _ s hs

theorem runDetector_before (probes : List StatfsResult) : ∀ (flag : Bool) (i : Nat)
    (s : DetectStep), (runDetector flag probes)[i]? = some s →
    (s.before = true ↔ flag = true ∨ ∃ j t, j < i ∧ (runDetector flag probes)[j]? = some t ∧
      t.result.outcome = .ok true) := by
  induction probes with
  | nil => intro flag i s hs; simp [runDetector] at hs
  | cons st rest ih =>
    intro flag i s hs
    have hzero : ∀ (tl : List DetectStep) (s : DetectStep),
        (⟨flag, st, sc_cgroup_is_v2 flag st⟩ :: tl)[0]? = some s →
        (s.before = true ↔ flag = true ∨ ∃ j t, j < 0 ∧
          (⟨flag, st, sc_cgroup_is_v2 flag st⟩ :: tl)[j]? = some t ∧
          t.result.outcome = .ok true) := by
      intro tl s hs
      simp only [List.getElem?_cons_zero, Option.some.injEq] at hs
      subst hs
      simp
    rcases runDetector_cons flag st rest with h | h
    · rw [h] at hs ⊢
      cases i with
      | zero => exact hzero [] s hs
      | succ k => simp at hs
    · rw [h] at hs ⊢
      cases i with
      | zero => exact hzero _ s hs
      | succ k =>
        simp only [List.getElem?_cons_succ] at hs
        rw [ih _ k s hs]
        have hw := detect_did_warn flag st
        constructor
        · rintro (hw2 | ⟨j, t, hj, ht, hu⟩)
          · rw [hw2] at hw
            have hw3 := hw.symm
            simp only [Bool.or_eq_true, decide_eq_true_eq] at hw3
            rcases hw3 with hf | hu
            · exact Or.inl hf
            · exact Or.inr ⟨0, ⟨flag, st, sc_cgroup_is_v2 flag st⟩, by omega, by simp, hu⟩
          · exact Or.inr ⟨j + 1, t, by omega, by simpa using ht, hu⟩
        · rintro (hf | ⟨j, t, hj, ht, hu⟩)
          · left; rw [hw]; simp [hf]
          · cases j with
            | zero =>
              simp only [List.getElem?_cons_zero, Option.some.injEq] at ht
              subst ht
              left
              rw [hw]
              simp only [Bool.or_eq_true, decide_eq_true_eq]
              exact Or.inr hu
            | succ j2 =>
              right
              exact ⟨j2, t, by omega, by simpa using ht, hu⟩

theorem runDetector_warnings (probes : List StatfsResult) : ∀ (flag : Bool),
    (warnings (runDetector flag probes)).length ≤ (if flag then 0 else 1) ∧
    flagSets (runDetector flag probes) ≤ (if flag then 0 else 1) := by
  induction probes with
  | nil => intro flag; simp [runDetector, warnings, flagSets]
  | cons st rest ih =>
    intro flag
    have hs := detect_stderr flag st
    have hw := detect_did_warn flag st
    have hrest := ih (sc_cgroup_is_v2 flag st).did_warn
    rcases runDetector_cons flag st rest with h | h
    · rw [h]
      simp only [warnings, flagSets, List.map_cons, List.map_nil, List.flatten_cons,
        List.flatten_nil, List.append_nil, List.filter_cons, List.filter_nil]
      cases flag
      · by_cases hu : (sc_cgroup_is_v2 false st).outcome = .ok true
        · simp [hs, hw, hu]
        · simp [hs, hw, hu]
      · simp [hs, hw]
    · rw [h]
      simp only [warnings, flagSets, List.map_cons, List.flatten_cons, List.length_append,
        List.filter_cons] at hrest ⊢
      cases flag
      · by_cases hu : (sc_cgroup_is_v2 false st).outcome = .ok true
        · simp only [hw, hu, decide_True, Bool.or_true, if_true] at hrest
          simp only [hs, hw, hu, and_self, if_true, List.length_cons, List.length_nil,
            Bool.not_false, Bool.true_and, decide_True, Bool.or_true]
          simp only [Bool.false_eq_true, if_false]
          omega
        · simp only [hw, hu, decide_False, Bool.or_false, Bool.false_eq_true, if_false] at hrest
          simp only [hs, hw, hu, and_false, if_false, List.length_nil, decide_False,
            Bool.or_false, Bool.not_false, Bool.and_false, Bool.false_eq_true]
          omega
      · simp only [hw, Bool.true_or, if_true] at hrest
        simp only [hs, hw, Bool.true_or, if_true, Bool.true_eq_false, false_and, if_false,
          List.length_nil, Bool.not_true, Bool.false_and, Bool.false_eq_true]
        omega

theorem runDetector_chain (probes : List StatfsResult) : ∀ (flag : Bool) (i : Nat)
    (s t : DetectStep), (runDetector flag probes)[i]? = some s →
    (runDetector flag probes)[i + 1]? = some t → t.before = s.result.did_warn := by
  induction probes with
  | nil => intro flag i s t hs; simp [runDetector] at hs
  | cons st rest ih =>
    intro flag i s t hs ht
    rcases runDetector_cons flag st rest with h | h
    · rw [h] at ht
      simp at ht
    · rw [h] at hs ht
      cases i with
      | zero =>
        simp only [List.getElem?_cons_zero, Option.some.injEq] at hs
        subst hs
        simp only [zero_add, List.getElem?_cons_succ] at ht
        cases rest with
        | nil => simp [runDetector] at ht
        | cons st2 rest2 =>
          rcases runDetector_cons (sc_cgroup_is_v2 flag st).did_warn st2 rest2 with h2 | h2
          · rw [h2] at ht
            simp only [List.getElem?_cons_zero, Option.some.injEq] at ht
            subst ht; rfl
          · rw [h2] at ht
            simp only [List.getElem?_cons_zero, Option.some.injEq] at ht
            subst ht; rfl
      | succ k =>
        simp only [List.getElem?_cons_succ] at hs ht
        exact ih _ k s t hs ht

/-! ## Lemmas on the Joiner -/

/-- Formatting the pid into the 22-byte buffer succeeds. -/
theorem pid_fits (pid : Int) :
    sc_must_snprintf 22 (fmtDecimal (toLong pid)) =
      .ok (fmtDecimal (toLong pid), (fmtDecimal (toLong pid)).length) := by
  have := fmt_long_length pid
  unfold sc_must_snprintf
  rw [if_pos (by omega)]

theorem buf_take (text : Text) :
    (text ++ List.replicate (22 - text.length) '\x00').take text.length = text := by
  simp

theorem cleanup_close_of_nonneg {fd : Int} (h : ¬ fd < 0) :
    sc_cleanup_close fd = [.sys_close fd] := by
  unfold sc_cleanup_close
  rw [if_neg (by omega)]

/-- The Joiner on a script all of whose steps succeed. -/
theorem joinScripted_ok (script : Nat → SysRet) (parent name : Text) (pid : Int)
    (h0 : 0 ≤ (script 0).ret) (h1 : 0 ≤ (script 1).ret ∨ (script 1).errno = EEXIST)
    (h2 : 0 ≤ (script 2).ret) (h3 : 0 ≤ (script 3).ret) (h4 : 0 ≤ (script 4).ret)
    (h5 : ((fmtDecimal (toLong pid)).length : Int) ≤ (script 5).ret) :
    (joinScripted script parent name pid).outcome = .ok () ∧
    (joinScripted script parent name pid).trace = joinerCalls script parent name pid ++
      [.sys_close (script 4).ret, .sys_close (script 2).ret, .sys_close (script 0).ret] := by
  have g0 : ¬ (script 0).ret < 0 := by omega
  have g1 : ¬ ((script 1).ret < 0 ∧ (script 1).errno ≠ EEXIST) := by
    rintro ⟨a, b⟩
    rcases h1 with h | h
    · omega
    · exact b h
  have g2 : ¬ (script 2).ret < 0 := by omega
  have g3 : ¬ (script 3).ret < 0 := by omega
  have g4 : ¬ (script 4).ret < 0 := by omega
  have g5 : ¬ (script 5).ret < ((fmtDecimal (toLong pid)).length : Int) := by omega
  simp [joinScripted, sc_cgroup_create_and_join, scripted, pid_fits, g0, g1, g2,
    g3, g4, g5, cleanup_close_of_nonneg g0,
    cleanup_close_of_nonneg g2, cleanup_close_of_nonneg g4, joinerCalls]

/-- The Joiner on a script whose step `k` is the first to fail. -/
theorem joinScripted_fail (script : Nat → SysRet) (parent name : Text) (pid : Int) (k : Nat)
    (hk : k < 6) (hbefore : ∀ j, j < k → StepOk (fmtDecimal (toLong pid)).length j (script j))
    (hfail : ¬ StepOk (fmtDecimal (toLong pid)).length k (script k)) :
    (joinScripted script parent name pid).outcome = .die (joinerDiagnostic parent name pid k) ∧
    (joinScripted script parent name pid).trace =
      (joinerCalls script parent name pid).take (k + 1) ∧
    (joinScripted script parent name pid).state = k + 1 := by
  have g0 : 0 < k → ¬ (script 0).ret < 0 := fun h => by
    have := hbefore 0 h; simp only [StepOk] at this; simp at this; omega
  have g1 : 1 < k → ¬ ((script 1).ret < 0 ∧ (script 1).errno ≠ EEXIST) := fun h => by
    have := hbefore 1 h; simp only [StepOk, if_true] at this
    rintro ⟨a, b⟩
    rcases this with h | h
    · omega
    · exact b h
  have g2 : 2 < k → ¬ (script 2).ret < 0 := fun h => by
    have := hbefore 2 h; simp only [StepOk] at this; simp at this; omega
  have g3 : 3 < k → ¬ (script 3).ret < 0 := fun h => by
    have := hbefore 3 h; simp only [StepOk] at this; simp at this; omega
  have g4 : 4 < k → ¬ (script 4).ret < 0 := fun h => by
    have := hbefore 4 h; simp only [StepOk] at this; simp at this; omega
  interval_cases k
  · have f : (script 0).ret < 0 := by
      simp only [StepOk] at hfail; simp at hfail; omega
    simp [joinScripted, sc_cgroup_create_and_join, scripted, f, joinerCalls, joinerDiagnostic]
  · have f : (script 1).ret < 0 ∧ (script 1).errno ≠ EEXIST := by
      simp only [StepOk, if_true, not_or] at hfail
      exact ⟨by omega, hfail.2⟩
    have f0 := g0 (by omega)
    simp [joinScripted, sc_cgroup_create_and_join, scripted, f0, f, joinerCalls,
      joinerDiagnostic]
  · have f : (script 2).ret < 0 := by
      simp only [StepOk] at hfail; simp at hfail; omega
    have f0 := g0 (by omega)
    have f1 := g1 (by omega)
    simp [joinScripted, sc_cgroup_create_and_join, scripted, f0, f1, f, joinerCalls,
      joinerDiagnostic]
  · have f : (script 3).ret < 0 := by
      simp only [StepOk] at hfail; simp at hfail; omega
    have f0 := g0 (by omega)
    have f1 := g1 (by omega)
    have f2 := g2 (by omega)
    simp [joinScripted, sc_cgroup_create_and_join, scripted, f0, f1, f2, f, joinerCalls,
      joinerDiagnostic]
  · have f : (script 4).ret < 0 := by
      simp only [StepOk] at hfail; simp at hfail; omega
    have f0 := g0 (by omega)
    have f1 := g1 (by omega)
    have f2 := g2 (by omega)
    have f3 := g3 (by omega)
    simp [joinScripted, sc_cgroup_create_and_join, scripted, f0, f1, f2, f3, f, joinerCalls,
      joinerDiagnostic]
  · have f : (script 5).ret < ((fmtDecimal (toLong pid)).length : Int) := by
      simp only [StepOk] at hfail; simp at hfail; omega
    have f0 := g0 (by omega)
    have f1 := g1 (by omega)
    have f2 := g2 (by omega)
    have f3 := g3 (by omega)
    have f4 := g4 (by omega)
    simp [joinScripted, sc_cgroup_create_and_join, scripted, f0, f1, f2, f3, f4, pid_fits, f,
      joinerCalls, joinerDiagnostic]

/-! ## Lemmas on the cgroup filesystem model -/

theorem named_iff (p n : Text) (e : Text × Text × Node) :
    named p n e = true ↔ (e.1, e.2.1) = (p, n) := by
  unfold named
  simp only [decide_eq_true_eq, Prod.mk.injEq]

theorem find_named_none (p n : Text) (es : List (Text × Text × Node)) :
    es.find? (named p n) = none ↔ (p, n) ∉ es.map (fun e => (e.1, e.2.1)) := by
  induction es with
  | nil => simp
  | cons e es ih =>
    by_cases he : named p n e = true
    · have hk := (named_iff p n e).mp he
      simp only [List.find?_cons, he, List.map_cons, List.mem_cons, hk, true_or,
        not_true_eq_false]
      exact ⟨fun h => Option.noConfusion h, fun h => h.elim⟩
    · have hne : ¬ (p, n) = (e.1, e.2.1) := fun h => he ((named_iff p n e).mpr h.symm)
      have he2 : named p n e = false := by simpa using he
      simp only [List.find?_cons, he2, List.map_cons, List.mem_cons, hne, false_or]
      exact ih

theorem filter_named_none (p n : Text) (es : List (Text × Text × Node))
    (h : (p, n) ∉ es.map (fun e => (e.1, e.2.1))) : es.filter (named p n) = [] := by
  rw [List.filter_eq_nil_iff]
  intro e he hn
  exact h (List.mem_map.mpr ⟨e, he, (named_iff p n e).mp hn⟩)

theorem filter_named_one (p n : Text) (es : List (Text × Text × Node))
    (hnd : (es.map (fun e => (e.1, e.2.1))).Nodup)
    (h : (p, n) ∈ es.map (fun e => (e.1, e.2.1))) : (es.filter (named p n)).length = 1 := by
  induction es with
  | nil => simp at h
  | cons e es ih =>
    simp only [List.map_cons, List.nodup_cons] at hnd
    by_cases he : named p n e = true
    · have hk := (named_iff p n e).mp he
      rw [List.filter_cons_of_pos he, filter_named_none p n es (hk ▸ hnd.1)]
      rfl
    · have hne : ¬ (p, n) = (e.1, e.2.1) := fun h => he ((named_iff p n e).mpr h.symm)
      rw [List.filter_cons_of_neg he]
      apply ih hnd.2
      simp only [List.map_cons, List.mem_cons, hne, false_or] at h
      exact h

theorem lookup_eq_none_iff (fs : Cgroupfs) (p n : Text) :
    fs.lookup p n = none ↔ (p, n) ∉ fs.entries.map (fun e => (e.1, e.2.1)) := by
  unfold Cgroupfs.lookup
  rw [Option.map_eq_none', find_named_none]

theorem count_of_lookup_none {fs : Cgroupfs} {p n : Text} (h : fs.lookup p n = none) :
    fs.count p n = 0 := by
  unfold Cgroupfs.count
  rw [filter_named_none p n _ ((lookup_eq_none_iff fs p n).mp h)]
  rfl

theorem count_of_lookup_some {fs : Cgroupfs} {p n : Text} {node : Node} (hwf : fs.WellFormed)
    (h : fs.lookup p n = some node) : fs.count p n = 1 := by
  have hmem : (p, n) ∈ fs.entries.map (fun e => (e.1, e.2.1)) := by
    by_contra hc
    rw [(lookup_eq_none_iff fs p n).mpr hc] at h
    cases h
  exact filter_named_one p n _ hwf hmem

theorem modify_keys (fs : Cgroupfs) (p n : Text) (f : Node → Node) :
    (fs.modify p n f).entries.map (fun e => (e.1, e.2.1)) =
      fs.entries.map (fun e => (e.1, e.2.1)) := by
  unfold Cgroupfs.modify
  simp only [List.map_map]
  apply List.map_congr_left
  intro e _
  simp only [Function.comp]
  split <;> rfl

theorem modify_wellFormed (fs : Cgroupfs) (p n : Text) (f : Node → Node)
    (h : fs.WellFormed) : (fs.modify p n f).WellFormed := by
  unfold Cgroupfs.WellFormed
  rw [modify_keys]
  exact h

theorem modify_lookup (fs : Cgroupfs) (p n : Text) (f : Node → Node) :
    (fs.modify p n f).lookup p n = (fs.lookup p n).map f := by
  unfold Cgroupfs.modify Cgroupfs.lookup
  simp only
  induction fs.entries with
  | nil => rfl
  | cons e es ih =>
    by_cases he : named p n e = true
    · have he2 : named p n (e.1, e.2.1, f e.2.2) = true := by
        rw [named_iff] at he ⊢
        exact he
      simp only [List.map_cons, he, if_true, List.find?_cons, he2, Option.map_some']
    · have he3 : named p n e = false := by simpa using he
      simp only [List.map_cons, he3, Bool.false_eq_true, if_false, List.find?_cons]
      exact ih

/-! ## The Joiner over the cgroup filesystem model -/

/-- The Joiner when the child is already there as a directory. -/
theorem joinFs_existing (fs : Cgroupfs) (parent name : Text) (pid : Int)
    (ino o g : Nat) (w : List Text)
    (hp : parent ∈ fs.parents) (hroot : fs.euid = 0) (hlive : toLong pid ∈ fs.live)
    (hl : fs.lookup parent name = some (.dir ino o g w)) :
    (sc_cgroup_create_and_join cgroupfs fs parent name pid).outcome = .ok () ∧
    (sc_cgroup_create_and_join cgroupfs fs parent name pid).state.entries =
      ((fs.modify parent name (Node.chown 0 0)).modify parent name
        (Node.append (fmtDecimal (toLong pid)))).entries ∧
    (sc_cgroup_create_and_join cgroupfs fs parent name pid).state.euid = fs.euid ∧
    (sc_cgroup_create_and_join cgroupfs fs parent name pid).state.live = fs.live ∧
    (sc_cgroup_create_and_join cgroupfs fs parent name pid).state.parents = fs.parents ∧
    (sc_cgroup_create_and_join cgroupfs fs parent name pid).state.next_ino = fs.next_ino := by
  have hl2 : (fs.modify parent name (Node.chown 0 0)).lookup parent name =
      some (.dir ino 0 0 w) := by
    rw [modify_lookup, hl]; rfl
  have n0 : ¬ ((fs.next_fd : Int) < 0) := by omega
  have n1 : ¬ ((fs.next_fd : Int) + 1 < 0) := by omega
  have n2 : ¬ ((fs.next_fd : Int) + 1 + 1 < 0) := by omega
  have m0 : ¬ ((fs.next_fd : Int) = -1) := by omega
  have m1 : ¬ ((fs.next_fd : Int) + 1 = -1) := by omega
  have m2 : ¬ ((fs.next_fd : Int) + 1 + 1 = -1) := by omega
  unfold Cgroupfs.lookup at hl
  simp [sc_cgroup_create_and_join, cgroupfs, Cgroupfs.alloc, hp, hroot, pid_fits,
    Cgroupfs.lookup, hl, Cgroupfs.modify, parseDecimal_fmtDecimal, hlive, runCalls,
    sc_cleanup_close, n0, n1, n2, m0, m1, m2]

theorem named_self (p n : Text) (node : Node) : named p n (p, n, node) = true := by
  simp [named]

/-- The Joiner when the parent has no entry of that name. -/
theorem joinFs_fresh (fs : Cgroupfs) (parent name : Text) (pid : Int)
    (hp : parent ∈ fs.parents) (hroot : fs.euid = 0) (hlive : toLong pid ∈ fs.live)
    (hl : fs.lookup parent name = none) :
    (sc_cgroup_create_and_join cgroupfs fs parent name pid).outcome = .ok () ∧
    (sc_cgroup_create_and_join cgroupfs fs parent name pid).state.entries =
      (parent, name, .dir fs.next_ino 0 0 [fmtDecimal (toLong pid)]) ::
        ((fs.modify parent name (Node.chown 0 0)).modify parent name
          (Node.append (fmtDecimal (toLong pid)))).entries ∧
    (sc_cgroup_create_and_join cgroupfs fs parent name pid).state.euid = fs.euid ∧
    (sc_cgroup_create_and_join cgroupfs fs parent name pid).state.live = fs.live ∧
    (sc_cgroup_create_and_join cgroupfs fs parent name pid).state.parents = fs.parents ∧
    (sc_cgroup_create_and_join cgroupfs fs parent name pid).state.next_ino =
      fs.next_ino + 1 := by
  have n0 : ¬ ((fs.next_fd : Int) < 0) := by omega
  have n1 : ¬ ((fs.next_fd : Int) + 1 < 0) := by omega
  have n2 : ¬ ((fs.next_fd : Int) + 1 + 1 < 0) := by omega
  have m0 : ¬ ((fs.next_fd : Int) = -1) := by omega
  have m1 : ¬ ((fs.next_fd : Int) + 1 = -1) := by omega
  have m2 : ¬ ((fs.next_fd : Int) + 1 + 1 = -1) := by omega
  unfold Cgroupfs.lookup at hl
  simp [sc_cgroup_create_and_join, cgroupfs, Cgroupfs.alloc, hp, hroot, pid_fits,
    Cgroupfs.lookup, hl, Cgroupfs.modify, parseDecimal_fmtDecimal, hlive, runCalls,
    sc_cleanup_close, n0, n1, n2, m0, m1, m2, named_self, Node.chown, Node.append]

/-- The Joiner fails when the parent cannot be opened. -/
theorem joinFs_no_parent (fs : Cgroupfs) (parent name : Text) (pid : Int)
    (hp : parent ∉ fs.parents) :
    (sc_cgroup_create_and_join cgroupfs fs parent name pid).outcome ≠ .ok () := by
  simp [sc_cgroup_create_and_join, cgroupfs, hp]

/-- The Joiner fails when the entry is there and is not a directory. -/
theorem joinFs_not_dir (fs : Cgroupfs) (parent name : Text) (pid : Int)
    (hp : parent ∈ fs.parents) (hl : fs.lookup parent name = some .other) :
    (sc_cgroup_create_and_join cgroupfs fs parent name pid).outcome ≠ .ok () := by
  have n0 : ¬ ((fs.next_fd : Int) < 0) := by omega
  unfold Cgroupfs.lookup at hl
  simp [sc_cgroup_create_and_join, cgroupfs, Cgroupfs.alloc, hp, Cgroupfs.lookup, hl, n0,
    EEXIST, ENOTDIR]

/-- The Joiner fails when the caller is not the superuser. -/
theorem joinFs_not_root (fs : Cgroupfs) (parent name : Text) (pid : Int)
    (hp : parent ∈ fs.parents) (hroot : fs.euid ≠ 0) :
    (sc_cgroup_create_and_join cgroupfs fs parent name pid).outcome ≠ .ok () := by
  have n0 : ¬ ((fs.next_fd : Int) < 0) := by omega
  have n1 : ¬ ((fs.next_fd : Int) + 1 < 0) := by omega
  cases hl : fs.lookup parent name with
  | none =>
    unfold Cgroupfs.lookup at hl
    simp [sc_cgroup_create_and_join, cgroupfs, Cgroupfs.alloc, hp, Cgroupfs.lookup, hl, n0, n1,
      named_self, hroot, EPERM]
  | some node =>
    cases node with
    | other => exact joinFs_not_dir fs parent name pid hp hl
    | dir ino o g w =>
      unfold Cgroupfs.lookup at hl
      simp [sc_cgroup_create_and_join, cgroupfs, Cgroupfs.alloc, hp, Cgroupfs.lookup, hl, n0,
        n1, hroot, EPERM, EEXIST]

/-- The Joiner fails when cgroup.procs refuses the pid. -/
theorem joinFs_not_live (fs : Cgroupfs) (parent name : Text) (pid : Int)
    (hp : parent ∈ fs.parents) (hroot : fs.euid = 0) (hlive : toLong pid ∉ fs.live) :
    (sc_cgroup_create_and_join cgroupfs fs parent name pid).outcome ≠ .ok () := by
  have n0 : ¬ ((fs.next_fd : Int) < 0) := by omega
  have n1 : ¬ ((fs.next_fd : Int) + 1 < 0) := by omega
  have n2 : ¬ ((fs.next_fd : Int) + 1 + 1 < 0) := by omega
  have hlen : (-1 : Int) < ((fmtDecimal (toLong pid)).length : Int) := by omega
  cases hl : fs.lookup parent name with
  | none =>
    unfold Cgroupfs.lookup at hl
    simp [sc_cgroup_create_and_join, cgroupfs, Cgroupfs.alloc, hp, Cgroupfs.lookup, hl, n0, n1,
      n2, named_self, hroot, pid_fits, parseDecimal_fmtDecimal, hlive, hlen, Cgroupfs.modify]
  | some node =>
    cases node with
    | other => exact joinFs_not_dir fs parent name pid hp hl
    | dir ino o g w =>
      unfold Cgroupfs.lookup at hl
      simp [sc_cgroup_create_and_join, cgroupfs, Cgroupfs.alloc, hp, Cgroupfs.lookup, hl, n0,
        n1, n2, hroot, pid_fits, parseDecimal_fmtDecimal, hlive, hlen, Cgroupfs.modify, EEXIST]

theorem joinFs_conditions (fs : Cgroupfs) (parent name : Text) (pid : Int)
    (h : (joinFs fs parent name pid).outcome = .ok ()) :
    parent ∈ fs.parents ∧ fs.euid = 0 ∧ toLong pid ∈ fs.live ∧
    fs.lookup parent name ≠ some .other := by
  have hp : parent ∈ fs.parents := by
    by_contra hc
    exact joinFs_no_parent fs parent name pid hc h
  have hroot : fs.euid = 0 := by
    by_contra hc
    exact joinFs_not_root fs parent name pid hp hc h
  have hlive : toLong pid ∈ fs.live := by
    by_contra hc
    exact joinFs_not_live fs parent name pid hp hroot hc h
  exact ⟨hp, hroot, hlive, fun hc => joinFs_not_dir fs parent name pid hp hc h⟩

theorem lookup_congr {s t : Cgroupfs} (h : s.entries = t.entries) (p n : Text) :
    s.lookup p n = t.lookup p n := by
  unfold Cgroupfs.lookup; rw [h]

theorem count_congr {s t : Cgroupfs} (h : s.entries = t.entries) (p n : Text) :
    s.count p n = t.count p n := by
  unfold Cgroupfs.count; rw [h]

theorem modify_count (fs : Cgroupfs) (p n : Text) (f : Node → Node)
    (hwf : fs.WellFormed) {node : Node} (h : fs.lookup p n = some node) :
    (fs.modify p n f).count p n = 1 :=
  count_of_lookup_some (modify_wellFormed fs p n f hwf) (by rw [modify_lookup, h]; rfl)

/-- The state a successful call of the Joiner leaves: the filesystem is
well-formed, the parent holds one entry of that name, a directory of 0:0,
which is the directory that was there before the call when there was one. -/
theorem joinFs_post (fs : Cgroupfs) (parent name : Text) (pid : Int) (hwf : fs.WellFormed)
    (h : (joinFs fs parent name pid).outcome = .ok ()) :
    (joinFs fs parent name pid).state.WellFormed ∧
    (joinFs fs parent name pid).state.count parent name = 1 ∧
    (joinFs fs parent name pid).state.parents = fs.parents ∧
    (joinFs fs parent name pid).state.euid = fs.euid ∧
    (joinFs fs parent name pid).state.live = fs.live ∧
    (∃ ino w, (joinFs fs parent name pid).state.lookup parent name = some (.dir ino 0 0 w)) ∧
    (∀ ino o g w, fs.lookup parent name = some (.dir ino o g w) →
      (joinFs fs parent name pid).state.lookup parent name =
        some (.dir ino 0 0 (w ++ [fmtDecimal (toLong pid)])) ∧
      (joinFs fs parent name pid).state.next_ino = fs.next_ino ∧
      (joinFs fs parent name pid).state.entries.length = fs.entries.length) := by
  obtain ⟨hp, hroot, hlive, hnot⟩ := joinFs_conditions fs parent name pid h
  unfold joinFs at *
  cases hl : fs.lookup parent name with
  | none =>
    obtain ⟨_, he, heuid, hlv, hpar, _⟩ := joinFs_fresh fs parent name pid hp hroot hlive hl
    have hkeys : (sc_cgroup_create_and_join cgroupfs fs parent name pid).state.entries.map
        (fun e => (e.1, e.2.1)) = (parent, name) :: fs.entries.map (fun e => (e.1, e.2.1)) := by
      rw [he, List.map_cons, modify_keys, modify_keys]
    refine ⟨?_, ?_, hpar, heuid, hlv, ⟨fs.next_ino, [fmtDecimal (toLong pid)], ?_⟩, ?_⟩
    · unfold Cgroupfs.WellFormed
      rw [hkeys]
      exact List.nodup_cons.mpr ⟨(lookup_eq_none_iff fs parent name).mp hl, hwf⟩
    · unfold Cgroupfs.count
      rw [he, List.filter_cons_of_pos (named_self _ _ _), filter_named_none]
      · rfl
      · rw [modify_keys, modify_keys]
        exact (lookup_eq_none_iff fs parent name).mp hl
    · unfold Cgroupfs.lookup
      rw [he, List.find?_cons_of_pos _ (named_self _ _ _)]
      rfl
    · intro ino o g w hc
      cases hc
  | some node =>
    cases node with
    | other => exact absurd hl hnot
    | dir ino o g w =>
      obtain ⟨_, he, heuid, hlv, hpar, hino⟩ :=
        joinFs_existing fs parent name pid ino o g w hp hroot hlive hl
      have hlook : (sc_cgroup_create_and_join cgroupfs fs parent name pid).state.lookup
          parent name = some (.dir ino 0 0 (w ++ [fmtDecimal (toLong pid)])) := by
        rw [lookup_congr he, modify_lookup, modify_lookup, hl]
        rfl
      have hwf2 : (sc_cgroup_create_and_join cgroupfs fs parent name pid).state.WellFormed := by
        unfold Cgroupfs.WellFormed
        rw [he, modify_keys, modify_keys]
        exact hwf
      refine ⟨hwf2, count_of_lookup_some hwf2 hlook, hpar, heuid, hlv, ⟨ino, _, hlook⟩, ?_⟩
      intro ino2 o2 g2 w2 hc
      injection hc with hc
      injection hc with h1 h2 h3 h4
      subst h1 h4
      refine ⟨hlook, hino, ?_⟩
      rw [he]
      simp [Cgroupfs.modify]

/-! ## The Hierarchy Locator: claims -/

/-- C1: when the lines of the report are well-formed records up to a first
record whose hierarchy-id is "0", the Mode Detector reports a mode and the
result fits the path limit, the Locator returns the mount prefix of that mode
("/sys/fs/cgroup/" for Unified, "/sys/fs/cgroup/unified/" for Legacy/Hybrid)
followed by the path field of that first record without its one leading
slash. -/
theorem locator_returns_first_zero_record (pid : Int) (report : Text) (flag : Bool)
    (st : StatfsResult) (pre : List Text) (l : Text) (post : List Text) (unified : Bool)
    (hlines : getlines report = pre ++ l :: post)
    (hpre : ∀ x ∈ pre, WellFormed x ∧ ¬ ZeroRecord x)
    (hzero : ZeroRecord l)
    (hmode : (sc_cgroup_is_v2 flag st).outcome = .ok unified)
    (hfit : ((if unified then "/sys/fs/cgroup/".toList else "/sys/fs/cgroup/unified/".toList)
      ++ stripSlash (pathField (lineText l))).length ≤ PATH_MAX) :
    (locate pid report flag st).outcome =
      .ok ((if unified then "/sys/fs/cgroup/".toList else "/sys/fs/cgroup/unified/".toList)
        ++ stripSlash (pathField (lineText l))) := by
  have hpre2 : ∀ x ∈ pre, ¬ Decisive x := fun x hx =>
    (not_decisive_iff x).mpr ⟨(hpre x hx).1, fun hid => (hpre x hx).2 ⟨(hpre x hx).1, hid⟩⟩
  rw [locate_zero pid report flag st pre l post hlines hpre2 hzero]
  rw [atZeroRecord_fit _ _ _ _ _ hmode (by unfold mountPrefix; omega)]
  rfl

/-- The examples of C1: the report "0::/user.slice/foo.service" under Unified
and under Legacy/Hybrid. -/
theorem locator_returns_first_zero_record_witness :
    (locate 1234 "0::/user.slice/foo.service\n".toList false ⟨0, 0, 0x63677270⟩).outcome =
      .ok "/sys/fs/cgroup/user.slice/foo.service".toList ∧
    (locate 1234 "1:cpu:/x\n0::/user.slice/foo.service\n".toList false ⟨0, 0, 0x01021994⟩).outcome =
      .ok "/sys/fs/cgroup/unified/user.slice/foo.service".toList :=
  ⟨locator_returns_first_zero_record 1234 "0::/user.slice/foo.service\n".toList false
      ⟨0, 0, 0x63677270⟩ [] "0::/user.slice/foo.service\n".toList [] true
      (by decide) (by decide) (by decide) (by decide) (by decide),
   locator_returns_first_zero_record 1234 "1:cpu:/x\n0::/user.slice/foo.service\n".toList false
      ⟨0, 0, 0x01021994⟩ ["1:cpu:/x\n".toList] "0::/user.slice/foo.service\n".toList [] false
      (by decide) (by decide) (by decide) (by decide) (by decide)⟩

/-- C3, counterexample: a report that contains a line with fewer than two
colons, and one that contains a line with more than two colons, for which the
Locator returns a path: the line comes after the record with id "0". -/
theorem locator_format_error_counterexample :
    ("b\n".toList ∈ getlines "0::/a\nb\n".toList ∧ colons (lineText "b\n".toList) < 2 ∧
      (locate 1 "0::/a\nb\n".toList false ⟨0, 0, 0x63677270⟩).outcome =
        .ok "/sys/fs/cgroup/a".toList) ∧
    ("1:::/x\n".toList ∈ getlines "0::/a\n1:::/x\n".toList ∧
      2 < colons (lineText "1:::/x\n".toList) ∧
      (locate 1 "0::/a\n1:::/x\n".toList false ⟨0, 0, 0x63677270⟩).outcome =
        .ok "/sys/fs/cgroup/a".toList) := by
  decide

/-- C3, amended: when the lines of the report are well-formed records with an
id other than "0" up to a line with fewer than two colons, or with more
than two, the Locator fails with the format error that names that line. -/
theorem locator_format_error (pid : Int) (report : Text) (flag : Bool) (st : StatfsResult)
    (pre : List Text) (l : Text) (post : List Text)
    (hlines : getlines report = pre ++ l :: post)
    (hpre : ∀ x ∈ pre, WellFormed x ∧ ¬ ZeroRecord x)
    (hbad : colons (lineText l) < 2 ∨ 2 < colons (lineText l)) :
    (locate pid report flag st).outcome = .die (formatDiagnostic (lineText l)) ∧
    IsFormatError (locate pid report flag st).outcome ∧
    lineText l <:+ formatDiagnostic (lineText l) := by
  have hpre2 : ∀ x ∈ pre, ¬ Decisive x := fun x hx =>
    (not_decisive_iff x).mpr ⟨(hpre x hx).1, fun hid => (hpre x hx).2 ⟨(hpre x hx).1, hid⟩⟩
  have hm : Malformed l := by unfold Malformed; omega
  rw [locate_malformed pid report flag st pre l post hlines hpre2 hm]
  refine ⟨rfl, ⟨lineText l, hm, rfl⟩, ?_⟩
  unfold formatDiagnostic
  split
  · exact List.suffix_append _ _
  · split <;> exact List.suffix_append _ _

/-- The example of C3: the report line "0:::/x" gives the format error that
names it; so does a line without a colon after a skipped record. -/
theorem locator_format_error_witness :
    (locate 1 "0:::/x\n".toList false ⟨0, 0, 0x63677270⟩).outcome =
      .die "cannot parse cgroup, expected end of line: 0:::/x".toList ∧
    (locate 1 "1:cpu:/\nnonsense\n".toList false ⟨0, 0, 0x63677270⟩).outcome =
      .die "cannot parse cgroup, expected hierarchy id: nonsense".toList :=
  ⟨(locator_format_error 1 "0:::/x\n".toList false ⟨0, 0, 0x63677270⟩ [] "0:::/x\n".toList []
      (by decide) (by decide) (by decide)).1,
   (locator_format_error 1 "1:cpu:/\nnonsense\n".toList false ⟨0, 0, 0x63677270⟩
      ["1:cpu:/\n".toList] "nonsense\n".toList [] (by decide) (by decide) (by decide)).1⟩

/-- C4, counterexample: on the report "1:cpu,cpuacct:/" the diagnostic is not
"cannot find unified cgroup path"; it is "cannot find cgroup v2 path". -/
theorem locator_not_found_counterexample :
    (locate 1 "1:cpu,cpuacct:/\n".toList false ⟨0, 0, 0x63677270⟩).outcome ≠
      .die "cannot find unified cgroup path".toList ∧
    (locate 1 "1:cpu,cpuacct:/\n".toList false ⟨0, 0, 0x63677270⟩).outcome =
      .die "cannot find cgroup v2 path".toList := by
  decide

/-- C4, amended: when every line of the report is a well-formed record with
an id other than "0" (the empty report included), the Locator reads to the
end of input, one `getline` call per line and the one that meets the end,
does not consult the Mode Detector, and fails with the diagnostic
"cannot find cgroup v2 path"; it returns no path. -/
theorem locator_not_found (pid : Int) (report : Text) (flag : Bool) (st : StatfsResult)
    (hall : ∀ x ∈ getlines report, WellFormed x ∧ ¬ ZeroRecord x) :
    (locate pid report flag st).outcome = .die "cannot find cgroup v2 path".toList ∧
    (∀ p, (locate pid report flag st).outcome ≠ .ok p) ∧
    (locate pid report flag st).getline_calls = (getlines report).length + 1 ∧
    (locate pid report flag st).detector_calls = 0 := by
  have hall2 : ∀ x ∈ getlines report, ¬ Decisive x := fun x hx =>
    (not_decisive_iff x).mpr ⟨(hall x hx).1, fun hid => (hall x hx).2 ⟨(hall x hx).1, hid⟩⟩
  rw [locate_no_decisive pid report flag st hall2]
  exact ⟨rfl, fun p h => Outcome.noConfusion h, rfl, rfl⟩

/-- The example of C4, and the empty report. -/
theorem locator_not_found_witness :
    (locate 1 "1:cpu,cpuacct:/\n".toList false ⟨0, 0, 0x63677270⟩).outcome =
      .die "cannot find cgroup v2 path".toList ∧
    (locate 1 [] false ⟨0, 0, 0x63677270⟩).outcome =
      .die "cannot find cgroup v2 path".toList :=
  ⟨(locator_not_found 1 "1:cpu,cpuacct:/\n".toList false ⟨0, 0, 0x63677270⟩ (by decide)).1,
   (locator_not_found 1 [] false ⟨0, 0, 0x63677270⟩ (by decide)).1⟩

/-- C7: every path the Locator returns begins with "/sys/fs/cgroup/" and is at
most PATH_MAX long; when the record with id "0" it reaches would give, with
the prefix of the reported mode, a path longer than PATH_MAX, the Locator
fails fatally and returns no path; and `sc_join_sub_cgroup` calls the Locator
with a buffer of PATH_MAX + 1 bytes. -/
theorem locator_path_invariant (pid : Int) (report : Text) (flag : Bool) (st : StatfsResult) :
    (∀ p, (locate pid report flag st).outcome = .ok p →
      "/sys/fs/cgroup/".toList <+: p ∧ p.length ≤ PATH_MAX) ∧
    (∀ pre l post unified, getlines report = pre ++ l :: post →
      (∀ x ∈ pre, WellFormed x ∧ ¬ ZeroRecord x) → ZeroRecord l →
      (sc_cgroup_is_v2 flag st).outcome = .ok unified →
      PATH_MAX < ((if unified then "/sys/fs/cgroup/".toList
        else "/sys/fs/cgroup/unified/".toList) ++ stripSlash (pathField (lineText l))).length →
      (∃ msg, (locate pid report flag st).outcome = .die msg) ∧
      ∀ p, (locate pid report flag st).outcome ≠ .ok p) ∧
    (∀ (script : Nat → SysRet) (tag : Text),
      (sc_join_sub_cgroup (scripted script) 0 tag pid (ProcCgroup.readable report) flag
        st).located = sc_find_unified_hierarchy pid (PATH_MAX + 1)
          (ProcCgroup.readable report) flag st ∧
      locate pid report flag st = sc_find_unified_hierarchy pid (4096 + 1)
          (ProcCgroup.readable report) flag st) := by
  refine ⟨?_, ?_, fun script tag => ⟨?_, rfl⟩⟩
  · intro p hp
    rcases first_decisive (getlines report) with h | ⟨pre, l, post, hl, hpre, hm | hz⟩
    · rw [locate_no_decisive pid report flag st h] at hp
      cases hp
    · rw [locate_malformed pid report flag st pre l post hl hpre hm] at hp
      cases hp
    · rw [locate_zero pid report flag st pre l post hl hpre hz] at hp
      obtain ⟨u, _, hfit, rfl⟩ := (atZeroRecord_ok_iff _ _ _ _ _ _).mp hp
      exact ⟨mountPrefix_isPrefix u _, by omega⟩
  · intro pre l post unified hl hpre hz hmode hlong
    have hpre2 : ∀ x ∈ pre, ¬ Decisive x := fun x hx =>
      (not_decisive_iff x).mpr ⟨(hpre x hx).1, fun hid => (hpre x hx).2 ⟨(hpre x hx).1, hid⟩⟩
    rw [locate_zero pid report flag st pre l post hl hpre2 hz,
      atZeroRecord_long _ _ _ _ _ hmode (by unfold mountPrefix; omega)]
    exact ⟨⟨_, rfl⟩, fun p h => Outcome.noConfusion h⟩
  · cases h : (sc_find_unified_hierarchy pid (PATH_MAX + 1) (ProcCgroup.readable report) flag
      st).outcome with
    | die msg => simp only [sc_join_sub_cgroup, h]
    | ok path => simp only [sc_join_sub_cgroup, h]

/-- The two parts of C7 at concrete reports: a returned path, and a record
whose path field of 4083 bytes gives a path one byte over PATH_MAX under
Unified. -/
theorem locator_path_invariant_witness :
    ("/sys/fs/cgroup/".toList <+: "/sys/fs/cgroup/a/b".toList ∧
      "/sys/fs/cgroup/a/b".toList.length ≤ PATH_MAX) ∧
    ((∃ msg, (locate 1 ("0::/".toList ++ List.replicate 4082 'a') false
        ⟨0, 0, 0x63677270⟩).outcome = .die msg) ∧
      ∀ p, (locate 1 ("0::/".toList ++ List.replicate 4082 'a') false
        ⟨0, 0, 0x63677270⟩).outcome ≠ .ok p) :=
  ⟨(locator_path_invariant 1 "0::/a/b\n".toList false ⟨0, 0, 0x63677270⟩).1
      "/sys/fs/cgroup/a/b".toList (by decide),
   (locator_path_invariant 1 ("0::/".toList ++ List.replicate 4082 'a') false
      ⟨0, 0, 0x63677270⟩).2.1 [] ("0::/".toList ++ List.replicate 4082 'a') [] true
      (long_record 4082).1 (fun x hx => absurd hx (List.not_mem_nil x)) (long_record 4082).2.1
      (by decide) (by rw [(long_record 4082).2.2, long_path_length]; decide)⟩

/-- C10, counterexample: the first decisive line of the report "0::/x" is a
record with id "0", and the Locator returns no path, because statfs fails
with EACCES and the Mode Detector dies. -/
theorem locator_cutoff_counterexample :
    getlines "0::/x\n".toList = ["0::/x\n".toList] ∧ ZeroRecord "0::/x\n".toList ∧
    (locate 1 "0::/x\n".toList false ⟨-1, 13, 0⟩).outcome =
      .die "cannot statfs /sys/fs/cgroup".toList := by
  decide

/-- C10, amended: the first decisive line of the report decides the outcome.
The Locator fails with a format error exactly when the first decisive line is
malformed; it returns a path exactly when the first decisive line is a record
with id "0", the Mode Detector then reports a mode and the path fits
PATH_MAX; the Mode Detector is called, once, exactly when the first decisive
line is a record with id "0", and otherwise the flag is unchanged and nothing
is printed; and two reports that agree up to and including the first decisive
line give the same result, `getline` being called once per line up to that
line and no more. -/
theorem locator_decided_by_first_decisive_line (pid : Int) (report : Text) (flag : Bool)
    (st : StatfsResult) :
    (IsFormatError (locate pid report flag st).outcome ↔
      ∃ pre l post, getlines report = pre ++ l :: post ∧ (∀ x ∈ pre, ¬ Decisive x) ∧
        Malformed l) ∧
    ((∃ p, (locate pid report flag st).outcome = .ok p) ↔
      ∃ pre l post unified, getlines report = pre ++ l :: post ∧ (∀ x ∈ pre, ¬ Decisive x) ∧
        ZeroRecord l ∧ (sc_cgroup_is_v2 flag st).outcome = .ok unified ∧
        (mountPrefix unified ++ relPath l).length ≤ PATH_MAX) ∧
    ((locate pid report flag st).detector_calls = 1 ↔
      ∃ pre l post, getlines report = pre ++ l :: post ∧ (∀ x ∈ pre, ¬ Decisive x) ∧
        ZeroRecord l) ∧
    ((locate pid report flag st).detector_calls ≠ 1 →
      (locate pid report flag st).detector_calls = 0 ∧
      (locate pid report flag st).did_warn = flag ∧
      (locate pid report flag st).stderr = []) ∧
    (∀ report2 pre l post post2, getlines report = pre ++ l :: post →
      getlines report2 = pre ++ l :: post2 → (∀ x ∈ pre, ¬ Decisive x) → Decisive l →
      locate pid report2 flag st = locate pid report flag st ∧
      (locate pid report flag st).getline_calls = pre.length + 1) := by
  refine ⟨?_, ?_, ?_, ?_, ?_⟩
  · rcases first_decisive (getlines report) with h | ⟨pre, l, post, hl, hpre, hm | hz⟩
    · rw [locate_no_decisive pid report flag st h]
      constructor
      · intro hf
        exact absurd hf (not_formatError_of_take (by decide))
      · rintro ⟨pre, l, post, hl, _, hm⟩
        exact absurd (Or.inl hm) (h l (by simp [hl]))
    · rw [locate_malformed pid report flag st pre l post hl hpre hm]
      exact ⟨fun _ => ⟨pre, l, post, hl, hpre, hm⟩, fun _ => ⟨lineText l, hm, rfl⟩⟩
    · rw [locate_zero pid report flag st pre l post hl hpre hz]
      constructor
      · intro hf
        exact absurd hf (atZeroRecord_not_formatError _ _ _ _ _)
      · rintro ⟨pre2, l2, post2, hl2, hpre2, hm2⟩
        obtain ⟨_, rfl, _⟩ := first_decisive_unique (hl.symm.trans hl2) hpre (Or.inr hz) hpre2
          (Or.inl hm2)
        exact absurd hz.1 hm2
  · rcases first_decisive (getlines report) with h | ⟨pre, l, post, hl, hpre, hm | hz⟩
    · rw [locate_no_decisive pid report flag st h]
      constructor
      · rintro ⟨p, hp⟩; cases hp
      · rintro ⟨pre, l, post, _, hl, _, hz, _⟩
        exact absurd (Or.inr hz) (h l (by simp [hl]))
    · rw [locate_malformed pid report flag st pre l post hl hpre hm]
      constructor
      · rintro ⟨p, hp⟩; cases hp
      · rintro ⟨pre2, l2, post2, _, hl2, hpre2, hz2, _⟩
        obtain ⟨_, rfl, _⟩ := first_decisive_unique (hl.symm.trans hl2) hpre (Or.inl hm) hpre2
          (Or.inr hz2)
        exact absurd hz2.1 hm
    · rw [locate_zero pid report flag st pre l post hl hpre hz]
      constructor
      · rintro ⟨p, hp⟩
        obtain ⟨u, hu, hfit, _⟩ := (atZeroRecord_ok_iff _ _ _ _ _ _).mp hp
        exact ⟨pre, l, post, u, hl, hpre, hz, hu, by unfold relPath; omega⟩
      · rintro ⟨pre2, l2, post2, u, hl2, hpre2, hz2, hu, hfit⟩
        obtain ⟨_, rfl, _⟩ := first_decisive_unique (hl.symm.trans hl2) hpre (Or.inr hz) hpre2
          (Or.inr hz2)
        exact ⟨_, (atZeroRecord_ok_iff _ _ _ _ _ _).mpr
          ⟨u, hu, by unfold relPath at hfit; omega, rfl⟩⟩
  · rcases first_decisive (getlines report) with h | ⟨pre, l, post, hl, hpre, hm | hz⟩
    · rw [locate_no_decisive pid report flag st h]
      constructor
      · intro h01; cases h01
      · rintro ⟨pre, l, post, hl, _, hz⟩
        exact absurd (Or.inr hz) (h l (by simp [hl]))
    · rw [locate_malformed pid report flag st pre l post hl hpre hm]
      constructor
      · intro h01; cases h01
      · rintro ⟨pre2, l2, post2, hl2, hpre2, hz2⟩
        obtain ⟨_, rfl, _⟩ := first_decisive_unique (hl.symm.trans hl2) hpre (Or.inl hm) hpre2
          (Or.inr hz2)
        exact absurd hz2.1 hm
    · rw [locate_zero pid report flag st pre l post hl hpre hz]
      exact ⟨fun _ => ⟨pre, l, post, hl, hpre, hz⟩, fun _ => (atZeroRecord_calls _ _ _ _ _).1⟩
  · rcases first_decisive (getlines report) with h | ⟨pre, l, post, hl, hpre, hm | hz⟩
    · rw [locate_no_decisive pid report flag st h]
      exact fun _ => ⟨rfl, rfl, rfl⟩
    · rw [locate_malformed pid report flag st pre l post hl hpre hm]
      exact fun _ => ⟨rfl, rfl, rfl⟩
    · rw [locate_zero pid report flag st pre l post hl hpre hz]
      exact fun hne => absurd (atZeroRecord_calls _ _ _ _ _).1 hne
  · intro report2 pre l post post2 hl hl2 hpre hd
    rcases hd with hm | hz
    · rw [locate_malformed pid report flag st pre l post hl hpre hm,
        locate_malformed pid report2 flag st pre l post2 hl2 hpre hm]
      exact ⟨rfl, rfl⟩
    · rw [locate_zero pid report flag st pre l post hl hpre hz,
        locate_zero pid report2 flag st pre l post2 hl2 hpre hz]
      exact ⟨rfl, (atZeroRecord_calls _ _ _ _ _).2⟩

/-- An instance of C10: a malformed record with a nonzero id before the record
with id "0" is fatal, and what follows it does not matter. -/
theorem locator_decided_by_first_decisive_line_witness :
    IsFormatError (locate 1 "1:a:/\n7:b\n0::/x\n".toList false ⟨0, 0, 0⟩).outcome ∧
    locate 1 "1:a:/\n7:b\n".toList false ⟨0, 0, 0⟩ =
      locate 1 "1:a:/\n7:b\n0::/x\n".toList false ⟨0, 0, 0⟩ :=
  ⟨(locator_decided_by_first_decisive_line 1 "1:a:/\n7:b\n0::/x\n".toList false ⟨0, 0, 0⟩).1.mpr
      ⟨["1:a:/\n".toList], "7:b\n".toList, ["0::/x\n".toList], by decide, by decide, by decide⟩,
   ((locator_decided_by_first_decisive_line 1 "1:a:/\n7:b\n0::/x\n".toList false
      ⟨0, 0, 0⟩).2.2.2.2 "1:a:/\n7:b\n".toList ["1:a:/\n".toList] "7:b\n".toList
      ["0::/x\n".toList] [] (by decide) (by decide) (by decide) (by decide)).1⟩

/-! ## The Mode Detector: claims -/

/-- C6: the decision table of the Mode Detector. When statfs fails with ENOENT
the result is Legacy/Hybrid; when it fails with another error the detector
dies and returns no mode; when it succeeds the result is Unified exactly
when `f_type` is 0x63677270; and the outcome is the same whatever the value
of the flag `did_warn`. -/
theorem mode_detector_decision_table (flag : Bool) (st : StatfsResult) :
    (st.ret ≠ 0 → st.errno = ENOENT → (sc_cgroup_is_v2 flag st).outcome = .ok false) ∧
    (st.ret ≠ 0 → st.errno ≠ ENOENT →
      (sc_cgroup_is_v2 flag st).outcome = .die "cannot statfs /sys/fs/cgroup".toList ∧
      ∀ m, (sc_cgroup_is_v2 flag st).outcome ≠ .ok m) ∧
    (st.ret = 0 →
      ((sc_cgroup_is_v2 flag st).outcome = .ok true ↔ st.f_type = 0x63677270) ∧
      ((sc_cgroup_is_v2 flag st).outcome = .ok false ↔ st.f_type ≠ 0x63677270)) ∧
    (∀ flag2, (sc_cgroup_is_v2 flag2 st).outcome = (sc_cgroup_is_v2 flag st).outcome) := by
  refine ⟨?_, ?_, ?_, fun flag2 => detect_outcome_flag flag flag2 st⟩
  · intro h1 h2
    simp [sc_cgroup_is_v2, h1, h2]
  · intro h1 h2
    simp only [sc_cgroup_is_v2, h1, h2, ne_eq, not_false_eq_true, if_true, if_false]
    exact ⟨rfl, fun m h => Outcome.noConfusion h⟩
  · intro h1
    by_cases h2 : st.f_type = 0x63677270
    · cases flag <;> simp [sc_cgroup_is_v2, h1, h2, CGROUP2_SUPER_MAGIC]
    · cases flag <;> simp [sc_cgroup_is_v2, h1, h2, CGROUP2_SUPER_MAGIC]

/-- The rows of the table of C6 at concrete answers of statfs: ENOENT, EACCES,
a cgroup2 mount and a tmpfs mount. -/
theorem mode_detector_decision_table_witness :
    (sc_cgroup_is_v2 false ⟨-1, 2, 0⟩).outcome = .ok false ∧
    (sc_cgroup_is_v2 true ⟨-1, 13, 0⟩).outcome = .die "cannot statfs /sys/fs/cgroup".toList ∧
    (sc_cgroup_is_v2 true ⟨0, 0, 0x63677270⟩).outcome = .ok true ∧
    (sc_cgroup_is_v2 false ⟨0, 0, 0x01021994⟩).outcome = .ok false :=
  ⟨(mode_detector_decision_table false ⟨-1, 2, 0⟩).1 (by decide) (by decide),
   ((mode_detector_decision_table true ⟨-1, 13, 0⟩).2.1 (by decide) (by decide)).1,
   ((mode_detector_decision_table true ⟨0, 0, 0x63677270⟩).2.2.1 (by decide)).1.mpr (by decide),
   ((mode_detector_decision_table false ⟨0, 0, 0x01021994⟩).2.2.1 (by decide)).2.mpr
     (by decide)⟩

/-- C8: in a run of Mode Detector calls that starts with the flag false, a
call prints the warning exactly when it detects Unified and no earlier call
did; a call prints nothing else; at most one warning is printed over the
run; the flag is set at most once, each call starts with the flag the call
before left, and a call that starts with the flag true leaves it true. -/
theorem one_shot_warning (probes : List StatfsResult) :
    (∀ (i : Nat) (s : DetectStep), (runDetector false probes)[i]? = some s →
      (s.result.stderr = [v2_warning] ↔
        s.result.outcome = .ok true ∧
        ∀ (j : Nat) (t : DetectStep), j < i → (runDetector false probes)[j]? = some t →
          t.result.outcome ≠ .ok true) ∧
      (s.result.stderr = [v2_warning] ∨ s.result.stderr = [])) ∧
    (warnings (runDetector false probes)).length ≤ 1 ∧
    flagSets (runDetector false probes) ≤ 1 ∧
    (∀ s : DetectStep, (runDetector false probes)[0]? = some s → s.before = false) ∧
    (∀ (i : Nat) (s t : DetectStep), (runDetector false probes)[i]? = some s →
      (runDetector false probes)[i + 1]? = some t → t.before = s.result.did_warn) ∧
    (∀ s ∈ runDetector false probes, s.before = true → s.result.did_warn = true) := by
  refine ⟨?_, (runDetector_warnings probes false).1, (runDetector_warnings probes false).2,
    ?_, runDetector_chain probes false, ?_⟩
  · intro i s hs
    have hmem : s ∈ runDetector false probes := List.getElem?_mem hs
    have hstep := runDetector_step probes false s hmem
    have hbefore := runDetector_before probes false i s hs
    have hstderr := detect_stderr s.before s.probe
    rw [← hstep] at hstderr
    constructor
    · constructor
      · intro hw
        rw [hw] at hstderr
        by_cases hc : s.before = false ∧ s.result.outcome = .ok true
        · refine ⟨hc.2, fun j t hj ht hu => ?_⟩
          have : s.before = true := hbefore.mpr (Or.inr ⟨j, t, hj, ht, hu⟩)
          rw [hc.1] at this
          cases this
        · rw [if_neg hc] at hstderr
          cases hstderr
      · rintro ⟨hu, hnone⟩
        have hb : s.before = false := by
          cases hb : s.before with
          | false => rfl
          | true =>
            rcases hbefore.mp hb with hf | ⟨j, t, hj, ht, hu2⟩
            · cases hf
            · exact absurd hu2 (hnone j t hj ht)
        rw [hstderr, if_pos ⟨hb, hu⟩]
    · rw [hstderr]
      split
      · left; rfl
      · right; rfl
  · intro s hs
    cases probes with
    | nil => simp [runDetector] at hs
    | cons st rest =>
      rcases runDetector_cons false st rest with h | h <;>
      · rw [h] at hs
        simp only [List.getElem?_cons_zero, Option.some.injEq] at hs
        subst hs; rfl
  · intro s hs hb
    rw [runDetector_step probes false s hs, detect_did_warn, hb]
    rfl

/-- A run for C8: Legacy/Hybrid, Unified, Unified, ENOENT, Unified gives one
warning, at the second call. -/
theorem one_shot_warning_witness :
    (runDetector false [⟨0, 0, 1⟩, ⟨0, 0, 0x63677270⟩, ⟨0, 0, 0x63677270⟩, ⟨-1, 2, 0⟩,
      ⟨0, 0, 0x63677270⟩]).map (fun s => s.result.stderr) =
      [[], [v2_warning], [], [], []] ∧
    (warnings (runDetector false [⟨0, 0, 1⟩, ⟨0, 0, 0x63677270⟩, ⟨0, 0, 0x63677270⟩,
      ⟨-1, 2, 0⟩, ⟨0, 0, 0x63677270⟩])).length ≤ 1 :=
  ⟨by decide,
   (one_shot_warning [⟨0, 0, 1⟩, ⟨0, 0, 0x63677270⟩, ⟨0, 0, 0x63677270⟩, ⟨-1, 2, 0⟩,
      ⟨0, 0, 0x63677270⟩]).2.1⟩

/-! ## The Hierarchy Joiner: claims -/

/-- C2: over a kernel that answers each system call as a script says, the
Joiner returns normally exactly when (1) the open of the parent succeeds,
(2) mkdirat succeeds or fails with EEXIST, (3) the open of the child
succeeds, (4) fchownat succeeds, (5) the open of cgroup.procs succeeds and
(6) write takes all `n` bytes; then it made those six calls, with the mode
0755, the owner and group 0 and the flag O_WRONLY, and closed its
descriptors. Otherwise it dies with the diagnostic of the first step that
fails, having made the calls up to that step and none after; a write that
returns less than `n`, an error included, makes it die. -/
theorem joiner_succeeds_iff_all_steps (script : Nat → SysRet) (parent name : Text) (pid : Int) :
    ((joinScripted script parent name pid).outcome = .ok () ↔
      0 ≤ (script 0).ret ∧ (0 ≤ (script 1).ret ∨ (script 1).errno = EEXIST) ∧
      0 ≤ (script 2).ret ∧ 0 ≤ (script 3).ret ∧ 0 ≤ (script 4).ret ∧
      ((fmtDecimal (toLong pid)).length : Int) ≤ (script 5).ret) ∧
    ((joinScripted script parent name pid).outcome = .ok () →
      (joinScripted script parent name pid).trace = joinerCalls script parent name pid ++
        [.sys_close (script 4).ret, .sys_close (script 2).ret, .sys_close (script 0).ret]) ∧
    (∀ k, k < 6 → (∀ j, j < k → StepOk (fmtDecimal (toLong pid)).length j (script j)) →
      ¬ StepOk (fmtDecimal (toLong pid)).length k (script k) →
      (joinScripted script parent name pid).outcome =
        .die (joinerDiagnostic parent name pid k) ∧
      (joinScripted script parent name pid).trace =
        (joinerCalls script parent name pid).take (k + 1)) ∧
    ((script 5).ret < ((fmtDecimal (toLong pid)).length : Int) →
      ∃ msg, (joinScripted script parent name pid).outcome = .die msg) := by
  have hall : (∀ k, k < 6 → StepOk (fmtDecimal (toLong pid)).length k (script k)) ↔
      0 ≤ (script 0).ret ∧ (0 ≤ (script 1).ret ∨ (script 1).errno = EEXIST) ∧
      0 ≤ (script 2).ret ∧ 0 ≤ (script 3).ret ∧ 0 ≤ (script 4).ret ∧
      ((fmtDecimal (toLong pid)).length : Int) ≤ (script 5).ret := by
    constructor
    · intro h
      have e0 := h 0 (by omega)
      have e1 := h 1 (by omega)
      have e2 := h 2 (by omega)
      have e3 := h 3 (by omega)
      have e4 := h 4 (by omega)
      have e5 := h 5 (by omega)
      simp only [StepOk] at e0 e1 e2 e3 e4 e5
      simp at e0 e1 e2 e3 e4 e5
      exact ⟨e0, e1, e2, e3, e4, e5⟩
    · rintro ⟨e0, e1, e2, e3, e4, e5⟩ k hk
      interval_cases k <;> simp [StepOk] <;> assumption
  -- a step fails: the first one that does decides the outcome
  have hfirst : (¬ ∀ k, k < 6 → StepOk (fmtDecimal (toLong pid)).length k (script k)) →
      ∃ k, k < 6 ∧ (∀ j, j < k → StepOk (fmtDecimal (toLong pid)).length j (script j)) ∧
        ¬ StepOk (fmtDecimal (toLong pid)).length k (script k) := by
    intro hnot
    have hex : ∃ k, k < 6 ∧ ¬ StepOk (fmtDecimal (toLong pid)).length k (script k) := by
      by_contra hcon
      exact hnot fun k hk => by
        by_contra hk2
        exact hcon ⟨k, hk, hk2⟩
    refine ⟨Nat.find hex, (Nat.find_spec hex).1, fun j hj => ?_, (Nat.find_spec hex).2⟩
    by_contra hj2
    exact Nat.find_min hex hj ⟨by have := (Nat.find_spec hex).1; omega, hj2⟩
  refine ⟨?_, ?_, ?_, ?_⟩
  · constructor
    · intro hok
      by_contra hnot
      obtain ⟨k, hk, hb, hf⟩ := hfirst (fun h => hnot (hall.mp h))
      rw [(joinScripted_fail script parent name pid k hk hb hf).1] at hok
      cases hok
    · rintro ⟨e0, e1, e2, e3, e4, e5⟩
      exact (joinScripted_ok script parent name pid e0 e1 e2 e3 e4 e5).1
  · intro hok
    by_cases hstep : ∀ k, k < 6 → StepOk (fmtDecimal (toLong pid)).length k (script k)
    · obtain ⟨e0, e1, e2, e3, e4, e5⟩ := hall.mp hstep
      exact (joinScripted_ok script parent name pid e0 e1 e2 e3 e4 e5).2
    · obtain ⟨k, hk, hb, hf⟩ := hfirst hstep
      rw [(joinScripted_fail script parent name pid k hk hb hf).1] at hok
      cases hok
  · intro k hk hb hf
    exact ⟨(joinScripted_fail script parent name pid k hk hb hf).1,
      (joinScripted_fail script parent name pid k hk hb hf).2.1⟩
  · intro hshort
    have hnot : ¬ ∀ k, k < 6 → StepOk (fmtDecimal (toLong pid)).length k (script k) := by
      intro h
      have := (hall.mp h).2.2.2.2.2
      omega
    obtain ⟨k, hk, hb, hf⟩ := hfirst hnot
    exact ⟨_, (joinScripted_fail script parent name pid k hk hb hf).1⟩

/-- Instances of C2: every step succeeds, the directory existing already; and
a write that takes 3 of the 4 bytes of "1234". -/
theorem joiner_succeeds_iff_all_steps_witness :
    (joinScripted (fun k => if k = 1 then ⟨-1, 17⟩ else ⟨(k : Int) + 3, 0⟩) "/sys/fs/cgroup/a".toList
      "snap.foo".toList 1234).outcome = .ok () ∧
    (joinScripted (fun k => if k = 5 then ⟨3, 0⟩ else ⟨(k : Int) + 3, 0⟩) "/sys/fs/cgroup/a".toList
      "snap.foo".toList 1234).outcome =
      .die "cannot move process 1234 to cgroup hierarchy /sys/fs/cgroup/a/snap.foo".toList :=
  ⟨(joiner_succeeds_iff_all_steps (fun k => if k = 1 then ⟨-1, 17⟩ else ⟨(k : Int) + 3, 0⟩)
      "/sys/fs/cgroup/a".toList "snap.foo".toList 1234).1.mpr (by decide),
   ((joiner_succeeds_iff_all_steps (fun k => if k = 5 then ⟨3, 0⟩ else ⟨(k : Int) + 3, 0⟩)
      "/sys/fs/cgroup/a".toList "snap.foo".toList 1234).2.2.1 5 (by decide) (by decide)
      (by decide)).1⟩

/-- C9: once cgroup.procs is open, the Joiner makes exactly one write call,
on the descriptor of cgroup.procs, whose bytes are the decimal rendering of
`(long)pid` and whose count is the length of that rendering. Formatting into
the 22-byte buffer succeeds for every pid, the rendering being at most 20
bytes; read back as a decimal number it gives `(long)pid`, which is `pid` for
a value in the range of long; it is a minus sign in front of the digits of
the magnitude for a negative value and the digits alone otherwise, with no
leading zero for a value other than 0, and holds no newline and no NUL. -/
theorem joiner_writes_decimal_pid (script : Nat → SysRet) (parent name : Text) (pid : Int)
    (hopen : ∀ k, k < 5 → StepOk (fmtDecimal (toLong pid)).length k (script k)) :
    writeCalls (joinScripted script parent name pid).trace =
      [.sys_write (script 4).ret (fmtDecimal (toLong pid)) (fmtDecimal (toLong pid)).length] ∧
    sc_must_snprintf 22 (fmtDecimal (toLong pid)) =
      .ok (fmtDecimal (toLong pid), (fmtDecimal (toLong pid)).length) ∧
    (fmtDecimal (toLong pid)).length ≤ 20 ∧
    parseDecimal (fmtDecimal (toLong pid)) = toLong pid ∧
    (-(2 ^ 63) ≤ pid → pid < 2 ^ 63 → toLong pid = pid) ∧
    (toLong pid < 0 → fmtDecimal (toLong pid) = '-' :: fmtNat (toLong pid).natAbs) ∧
    (0 ≤ toLong pid → fmtDecimal (toLong pid) = fmtNat (toLong pid).natAbs) ∧
    (∀ c ∈ fmtNat (toLong pid).natAbs, c.isDigit = true) ∧
    (toLong pid ≠ 0 → (fmtNat (toLong pid).natAbs).head? ≠ some '0') ∧
    (toLong pid = 0 → fmtDecimal (toLong pid) = ['0']) ∧
    '\n' ∉ fmtDecimal (toLong pid) ∧ '\x00' ∉ fmtDecimal (toLong pid) := by
  refine ⟨?_, pid_fits pid, fmt_long_length pid, parseDecimal_fmtDecimal _,
    toLong_of_range pid, ?_, ?_, fmtNat_digits _, ?_, ?_, ?_, ?_⟩
  · by_cases h5 : StepOk (fmtDecimal (toLong pid)).length 5 (script 5)
    · have e0 := hopen 0 (by omega)
      have e1 := hopen 1 (by omega)
      have e2 := hopen 2 (by omega)
      have e3 := hopen 3 (by omega)
      have e4 := hopen 4 (by omega)
      simp only [StepOk] at e0 e1 e2 e3 e4 h5
      simp at e0 e1 e2 e3 e4 h5
      rw [(joinScripted_ok script parent name pid e0 e1 e2 e3 e4 h5).2]
      rfl
    · rw [(joinScripted_fail script parent name pid 5 (by omega) hopen h5).2.1]
      rfl
  · intro h; simp [fmtDecimal, h]
  · intro h; simp [fmtDecimal, not_lt.mpr h]
  · intro h0
    obtain ⟨c, rest, hc, hne, _⟩ := fmtNat_head (toLong pid).natAbs (by omega)
    rw [hc]
    simpa using hne
  · intro h0
    rw [h0]
    rfl
  · intro h
    rcases fmtDecimal_chars _ _ h with h | h
    · exact absurd h (by decide)
    · exact absurd h (by decide)
  · intro h
    rcases fmtDecimal_chars _ _ h with h | h
    · exact absurd h (by decide)
    · exact absurd h (by decide)

/-- An instance of C9: the pid -42 is submitted as the three bytes "-42" in
one write call whose count is 3. -/
theorem joiner_writes_decimal_pid_witness :
    writeCalls (joinScripted (fun k => ⟨(k : Int) + 3, 0⟩) "/sys/fs/cgroup/a".toList
      "snap.foo".toList (-42)).trace = [.sys_write 7 "-42".toList 3] :=
  (joiner_writes_decimal_pid (fun k => ⟨(k : Int) + 3, 0⟩) "/sys/fs/cgroup/a".toList
    "snap.foo".toList (-42) (by decide)).1

/-- C5: over the cgroup filesystem model, well-formed and changed by no one
else, when a call of the Joiner succeeds a second call with the same
arguments succeeds too; after each call the parent holds exactly one entry of
that name, a directory whose owner and group are 0; the second call creates
no directory, the directory it leaves being the one the first call left (the
same inode), and the first call keeps a directory that was there before. -/
theorem joiner_idempotent (fs : Cgroupfs) (parent name : Text) (pid : Int)
    (hwf : fs.WellFormed) (hfirst : (joinFs fs parent name pid).outcome = .ok ()) :
    (joinFs (joinFs fs parent name pid).state parent name pid).outcome = .ok () ∧
    (joinFs fs parent name pid).state.count parent name = 1 ∧
    (joinFs (joinFs fs parent name pid).state parent name pid).state.count parent name = 1 ∧
    (∃ ino w1 w2,
      (joinFs fs parent name pid).state.lookup parent name = some (.dir ino 0 0 w1) ∧
      (joinFs (joinFs fs parent name pid).state parent name pid).state.lookup parent name =
        some (.dir ino 0 0 w2)) ∧
    (joinFs (joinFs fs parent name pid).state parent name pid).state.next_ino =
      (joinFs fs parent name pid).state.next_ino ∧
    (joinFs (joinFs fs parent name pid).state parent name pid).state.entries.length =
      (joinFs fs parent name pid).state.entries.length ∧
    (∀ ino o g w, fs.lookup parent name = some (.dir ino o g w) →
      ∃ w1, (joinFs fs parent name pid).state.lookup parent name = some (.dir ino 0 0 w1)) := by
  obtain ⟨hp, hroot, hlive, _⟩ := joinFs_conditions fs parent name pid hfirst
  obtain ⟨hwf1, hc1, hpar1, heuid1, hlive1, ⟨ino, w1, hl1⟩, hkeep⟩ :=
    joinFs_post fs parent name pid hwf hfirst
  have hsecond : (joinFs (joinFs fs parent name pid).state parent name pid).outcome = .ok () :=
    (joinFs_existing (joinFs fs parent name pid).state parent name pid ino 0 0 w1
      (by rw [hpar1]; exact hp) (by rw [heuid1]; exact hroot) (by rw [hlive1]; exact hlive)
      hl1).1
  obtain ⟨_, hc2, _, _, _, _, hkeep2⟩ :=
    joinFs_post (joinFs fs parent name pid).state parent name pid hwf1 hsecond
  obtain ⟨hl2, hino2, hlen2⟩ := hkeep2 ino 0 0 w1 hl1
  exact ⟨hsecond, hc1, hc2, ⟨ino, w1, _, hl1, hl2⟩, hino2, hlen2,
    fun ino0 o g w h0 => ⟨_, (hkeep ino0 o g w h0).1⟩⟩

set_option maxRecDepth 20000 in
/-- An instance of C5: two calls on a hierarchy that has no such child yet;
the child is created with the group of the caller, 1000, and given to 0:0. -/
theorem joiner_idempotent_witness :
    (joinFs (joinFs sampleFs "/sys/fs/cgroup/user.slice".toList "snap.foo".toList 1234).state
      "/sys/fs/cgroup/user.slice".toList "snap.foo".toList 1234).outcome = .ok () ∧
    (joinFs (joinFs sampleFs "/sys/fs/cgroup/user.slice".toList "snap.foo".toList 1234).state
      "/sys/fs/cgroup/user.slice".toList "snap.foo".toList 1234).state.lookup
      "/sys/fs/cgroup/user.slice".toList "snap.foo".toList =
      some (.dir 1 0 0 ["1234".toList, "1234".toList]) :=
  ⟨(joiner_idempotent sampleFs "/sys/fs/cgroup/user.slice".toList "snap.foo".toList 1234
      List.nodup_nil (by decide)).1, by decide⟩

end CgroupSupport
